import Mathlib

/-!
Verification development for the `cloud-plugin` deployment CLI.

The definitions below are a shallow embedding of the deployment
orchestration and resource-linkage engine:

* `src/commands/deploy/database.rs` — resource linkage engine
  (`get_resource_selection_for_existing_app`, `create_resources_for_new_app`,
  `create_and_link_resources_for_existing_app`, `link_resources`, the
  `Scripted` interaction strategy);
* `src/commands/deploy.rs` — the `deploy_cloud` orchestration slice that
  creates or updates the app, `needs_renewal`, `wait_for_ready`, `is_ready`,
  `parse_linkage_specs`, `LinkageSpec::from_str`;
* `crates/cloud/src/cloud_client_extensions.rs` — `get_app_id`,
  `get_revision_id`, `get_channel_id`;
* `crates/cloud/src/lib.rs` — `DEFAULT_APPLIST_PAGE_SIZE`.

Network calls issued through the `CloudClientInterface` are embedded as a
pure state (`CloudState`) plus an explicit call trace (`List CloudCall`).
`Uuid` values are embedded as `Nat`.  Backend effects of create/link calls
are modelled in `apply_call` in the natural way the surrounding code relies
on: a create appends a resource (carrying its label when one is supplied)
and a link appends the label to the named resource; no call ever removes a
resource or a link.
-/

namespace CloudPlugin

/-- `ResourceType` from `src/commands/links_output.rs` (`Database` |
`KeyValueStore`). -/
inductive ResourceType where
  | Database
  | KeyValueStore
deriving DecidableEq, Repr

/-- `ResourceLabel` from `cloud_openapi::models`: `{ app_id, label, app_name }`,
with `Uuid` embedded as `Nat`. -/
structure ResourceLabel where
  app_id : Nat
  label : String
  app_name : Option String
deriving DecidableEq, Repr

/-- `ResourceLinks` from `src/commands/links_output.rs`: a named resource
together with the labels linked to it. -/
structure ResourceLinks where
  name : String
  links : List ResourceLabel
deriving DecidableEq, Repr

/-- Modelled from the spec: `ResourceLinks::has_link`, whose definition is
missing from `src/` (only its callers, `deploy/database.rs` line 59 and
`links_target.rs` line 25, are present).  Per the spec the existing-app path
checks "whether a link for that exact `(label, kind)` already exists for this
app", so the check is whether some link of the resource carries this label
for this app name. -/
def ResourceLinks.has_link (r : ResourceLinks) (label : String)
    (app : Option String) : Bool :=
  r.links.any fun l => decide (l.label = label) && decide (l.app_name = app)

/-- `ResourceSelection` from `src/commands/deploy/database.rs`. -/
inductive ResourceSelection where
  | Existing (name : String)
  | New (name : String)
  | Cancelled
deriving DecidableEq, Repr

/-- `ExistingAppResourceSelection` from `src/commands/deploy/database.rs`. -/
inductive ExistingAppResourceSelection where
  | NotYetLinked (s : ResourceSelection)
  | AlreadyLinked
deriving DecidableEq, Repr

/-- `LinkageSpec` from `src/commands/deploy.rs`. -/
structure LinkageSpec where
  label : String
  resource_name : String
  resource_type : ResourceType
deriving DecidableEq, Repr

/-- `ChannelRevisionSelectionStrategy` from `cloud_openapi::models`; the
deploy flow only ever uses `UseSpecifiedRevision` ("pin to this exact
revision"). -/
inductive ChannelRevisionSelectionStrategy where
  | UseRangeRule
  | UseSpecifiedRevision
deriving DecidableEq, Repr

/-- `EnvironmentVariableItem` from `cloud_openapi::models` (only ever passed
as `None` by this code). -/
structure EnvironmentVariableItem where
  key : String
  value : String
deriving DecidableEq, Repr

/-- The backend state visible to the linkage engine: the account's databases
and key-value stores with their links. -/
structure CloudState where
  databases : List ResourceLinks
  key_value_stores : List ResourceLinks
deriving DecidableEq, Repr

/-- One call to the `CloudClientInterface` (or one interactive prompt),
recorded in the trace. -/
inductive CloudCall where
  | getDatabases
  | getKeyValueStores
  | promptResourceSelection (app_name label : String) (rt : ResourceType)
  | createDatabase (name : String) (rl : Option ResourceLabel)
  | createKeyValueStore (name : String) (rl : Option ResourceLabel)
  | createDatabaseLink (name : String) (rl : ResourceLabel)
  | createKeyValueStoreLink (name : String) (rl : ResourceLabel)
  | deleteDatabase (name : String)
  | deleteKeyValueStore (name : String)
  | addApp (name storage_id : String)
  | addRevision (storage_id version : String)
  | addKeyValuePair (app_id : Nat) (store key value : String)
  | addVariablePair (app_id : Nat) (var value : String)
  | addChannel (app_id : Nat) (name : String)
      (strategy : ChannelRevisionSelectionStrategy)
      (range_rule : Option String) (active_revision_id : Option Nat)
  | patchChannel (id : Nat) (name : Option String)
      (strategy : Option ChannelRevisionSelectionStrategy)
      (range_rule : Option String) (active_revision_id : Option Nat)
      (env : Option (List EnvironmentVariableItem))
  | listApps (page_size : Int) (page_index : Option Int)
deriving DecidableEq, Repr

/-- Effect of a call on the backend state: creates append a resource (with
its label already linked when one is supplied, as `create_database(name,
Some(resource_label))` requests), links append the label to the named
resource.  Reads and non-resource calls leave the state unchanged; nothing
removes a resource or a link. -/
def apply_call (st : CloudState) (c : CloudCall) : CloudState :=
  match c with
  | .createDatabase n rl =>
      { st with databases := st.databases ++ [⟨n, rl.toList⟩] }
  | .createKeyValueStore n rl =>
      { st with key_value_stores := st.key_value_stores ++ [⟨n, rl.toList⟩] }
  | .createDatabaseLink n rl =>
      { st with databases := st.databases.map fun r =>
          if r.name = n then { r with links := r.links ++ [rl] } else r }
  | .createKeyValueStoreLink n rl =>
      { st with key_value_stores := st.key_value_stores.map fun r =>
          if r.name = n then { r with links := r.links ++ [rl] } else r }
  | _ => st

/-- `get_resources` from `src/commands/deploy/database.rs`: the list returned
by `get_databases(None)` / `get_key_value_stores(None)`. -/
def get_resources (st : CloudState) (rt : ResourceType) : List ResourceLinks :=
  match rt with
  | .Database => st.databases
  | .KeyValueStore => st.key_value_stores

/-- The client call issued by `get_resources` for each resource type. -/
def get_resources_call (rt : ResourceType) : CloudCall :=
  match rt with
  | .Database => .getDatabases
  | .KeyValueStore => .getKeyValueStores

/-- A link for `(label, rt)` with app name `app` exists in the state. -/
def linked_in (st : CloudState) (rt : ResourceType) (label : String)
    (app : Option String) : Bool :=
  (get_resources st rt).any fun r => r.has_link label app

/-- A decision strategy (`InteractionStrategy` trait from
`src/commands/deploy/database.rs`): given app name, label, the current
resource list and the resource type, produce a selection or fail. -/
abbrev InteractionStrategy :=
  String → String → List ResourceLinks → ResourceType →
    Except String ResourceSelection

/-- `Scripted` from `src/commands/deploy/database.rs`: the pre-validated
`label -> resource_name` maps, one per resource kind (`HashMap` embedded as
an association list). -/
structure Scripted where
  kv_labels_to_resource : List (String × String)
  db_labels_to_resource : List (String × String)
deriving DecidableEq, Repr

/-- `Scripted::default()`. -/
def Scripted.empty : Scripted := ⟨[], []⟩

/-- The `label -> resource_name` map a `Scripted` strategy consults for a
given resource kind (the `match resource_type` shared by
`set_label_action` and `resource_for`). -/
def Scripted.labels_map (s : Scripted) (resource_type : ResourceType) :
    List (String × String) :=
  match resource_type with
  | .Database => s.db_labels_to_resource
  | .KeyValueStore => s.kv_labels_to_resource

/-- `Scripted::set_label_action`: inserting a second action for an already
occupied label is an immediate error. -/
def Scripted.set_label_action (s : Scripted) (label : String)
    (resource_name : String) (resource_type : ResourceType) :
    Except String Scripted :=
  let labels_to_resource := s.labels_map resource_type
  match labels_to_resource.lookup label with
  | some _ => .error s!"Label {label} is linked more than once"
  | none =>
      let updated := labels_to_resource ++ [(label, resource_name)]
      match resource_type with
      | .Database => .ok { s with db_labels_to_resource := updated }
      | .KeyValueStore => .ok { s with kv_labels_to_resource := updated }

/-- `Scripted::resource_for`. -/
def Scripted.resource_for (s : Scripted) (label : String)
    (resource_type : ResourceType) : Except String String :=
  match (s.labels_map resource_type).lookup label with
  | some resource_ref => .ok resource_ref
  | none => .error s!"No link specified for label \x27{label}\x27"

/-- `<Scripted as InteractionStrategy>::prompt_resource_selection`: purely
looks the label up and classifies the requested name as `Existing` when it
occurs among the current resource names, `New` otherwise. -/
def Scripted.prompt_resource_selection (s : Scripted) (_name : String)
    (label : String) (resources : List ResourceLinks)
    (resource_type : ResourceType) : Except String ResourceSelection :=
  let existing_names := resources.map (·.name)
  match s.resource_for label resource_type with
  | .error e => .error e
  | .ok requested_resource =>
      if existing_names.contains requested_resource then
        .ok (.Existing requested_resource)
      else
        .ok (.New requested_resource)

/-- The `Scripted` strategy seen through the strategy interface. -/
def Scripted.asStrategy (s : Scripted) : InteractionStrategy :=
  fun name label resources rt => s.prompt_resource_selection name label resources rt

/-- Splits a string at the first occurrence of `sep`
(`str::split_once`). -/
def splitOnce (s : String) (sep : Char) : Option (String × String) :=
  match s.toList.findIdx? (· = sep) with
  | none => none
  | some i =>
      some (⟨s.toList.take i⟩, ⟨s.toList.drop (i + 1)⟩)

/-- `str::trim`: remove leading and trailing whitespace. -/
def str_trim (s : String) : String :=
  ⟨((s.toList.dropWhile Char.isWhitespace).reverse.dropWhile
      Char.isWhitespace).reverse⟩

/-- The error message shared by all malformed `--link` values. -/
def linkage_form_error : String :=
  "Links must be of the form \x27sqlite:label=database\x27 or \x27kv:label=store\x27"

/-- `<LinkageSpec as FromStr>::from_str` from `src/commands/deploy.rs`:
`kind:label=name` with `kind` one of `sqlite` / `kv`, label and name
trimmed. -/
def LinkageSpec.from_str (s : String) : Except String LinkageSpec :=
  match splitOnce s ':' with
  | none => .error linkage_form_error
  | some (resource_str, pair) =>
    match splitOnce pair '=' with
    | none => .error linkage_form_error
    | some (label, resource) =>
        let label := str_trim label
        let resource := str_trim resource
        match resource_str with
        | "sqlite" => .ok ⟨label, resource, .Database⟩
        | "kv" => .ok ⟨label, resource, .KeyValueStore⟩
        | _ => .error linkage_form_error

/-- The loop body of `parse_linkage_specs`: parse each `--link` value in
order and feed it to `set_label_action`, stopping at the first error. -/
def parse_linkage_specs_from (strategy : Scripted) :
    List String → Except String Scripted
  | [] => .ok strategy
  | s :: rest =>
    match LinkageSpec.from_str s with
    | .error e => .error e
    | .ok link =>
      match strategy.set_label_action link.label link.resource_name
          link.resource_type with
      | .error e => .error e
      | .ok strategy => parse_linkage_specs_from strategy rest

/-- `parse_linkage_specs` from `src/commands/deploy.rs`. -/
def parse_linkage_specs (links : List String) : Except String Scripted :=
  parse_linkage_specs_from Scripted.empty links

/-- Parsing every `--link` value in order, stopping at the first parse
error (the parse results consumed one by one by `parse_linkage_specs`). -/
def parse_all_links : List String → Except String (List LinkageSpec)
  | [] => .ok []
  | s :: rest =>
    match LinkageSpec.from_str s with
    | .error e => .error e
    | .ok l =>
      match parse_all_links rest with
      | .error e => .error e
      | .ok ls => .ok (l :: ls)

/-- The `set_label_action` fold over already-parsed specifications (the same
loop as `parse_linkage_specs_from`, after parsing). -/
def set_label_actions (strategy : Scripted) :
    List LinkageSpec → Except String Scripted
  | [] => .ok strategy
  | l :: rest =>
    match strategy.set_label_action l.label l.resource_name l.resource_type with
    | .error e => .error e
    | .ok strategy => set_label_actions strategy rest

/-- `get_resource_selection_for_existing_app` from
`src/commands/deploy/database.rs`: list the resources of this kind; if any
already has a link for this label and app, report `AlreadyLinked` without
consulting the strategy; otherwise ask the strategy.  Returns the calls
made (the listing, and the prompt when it happens). -/
def get_resource_selection_for_existing_app (st : CloudState) (name : String)
    (interact : InteractionStrategy) (resource_label : ResourceLabel)
    (resource_type : ResourceType) :
    Except String ExistingAppResourceSelection × List CloudCall :=
  let resources := get_resources st resource_type
  if resources.any fun d => d.has_link resource_label.label resource_label.app_name
  then
    (.ok .AlreadyLinked, [get_resources_call resource_type])
  else
    match interact name resource_label.label resources resource_type with
    | .error e =>
        (.error e,
         [get_resources_call resource_type,
          .promptResourceSelection name resource_label.label resource_type])
    | .ok selection =>
        (.ok (.NotYetLinked selection),
         [get_resources_call resource_type,
          .promptResourceSelection name resource_label.label resource_type])

/-- `get_resource_selection_for_new_app`: list the resources of this kind
and ask the strategy (no already-linked check, the app does not exist). -/
def get_resource_selection_for_new_app (st : CloudState) (name label : String)
    (interact : InteractionStrategy) (resource_type : ResourceType) :
    Except String ResourceSelection × List CloudCall :=
  (interact name label (get_resources st resource_type) resource_type,
   [get_resources_call resource_type,
    .promptResourceSelection name label resource_type])

/-- The create call issued for a `New` selection on the existing-app path
(`create_database(r, Some(resource_label))` /
`create_key_value_store(&r, Some(resource_label))`). -/
def create_call_with_label (rt : ResourceType) (r : String)
    (rl : ResourceLabel) : CloudCall :=
  match rt with
  | .Database => .createDatabase r (some rl)
  | .KeyValueStore => .createKeyValueStore r (some rl)

/-- The link call issued for an `Existing` selection
(`create_database_link` / `create_key_value_store_link`). -/
def link_call (rt : ResourceType) (r : String) (rl : ResourceLabel) :
    CloudCall :=
  match rt with
  | .Database => .createDatabaseLink r rl
  | .KeyValueStore => .createKeyValueStoreLink r rl

/-- The `for (label, resource_type) in label_types` loop of
`create_and_link_resources_for_existing_app`.  Result `some ()` means the
loop completed, `none` means the user cancelled. -/
def create_and_link_existing_loop (name : String) (app_id : Nat)
    (interact : InteractionStrategy) :
    List (String × ResourceType) → CloudState →
      Except String (Option Unit) × CloudState × List CloudCall
  | [], st => (.ok (some ()), st, [])
  | (label, resource_type) :: rest, st =>
    let resource_label : ResourceLabel := ⟨app_id, label, some name⟩
    match get_resource_selection_for_existing_app st name interact
        resource_label resource_type with
    | (.error e, calls) => (.error e, st, calls)
    | (.ok .AlreadyLinked, calls) =>
        let r := create_and_link_existing_loop name app_id interact rest st
        (r.1, r.2.1, calls ++ r.2.2)
    | (.ok (.NotYetLinked selection), calls) =>
      match selection with
      | .Cancelled => (.ok none, st, calls)
      | .New rname =>
          let c := create_call_with_label resource_type rname resource_label
          let r := create_and_link_existing_loop name app_id interact rest
            (apply_call st c)
          (r.1, r.2.1, calls ++ c :: r.2.2)
      | .Existing rname =>
          let c := link_call resource_type rname resource_label
          let r := create_and_link_existing_loop name app_id interact rest
            (apply_call st c)
          (r.1, r.2.1, calls ++ c :: r.2.2)

/-- The chained `(label, resource_type)` list built at the top of both
linkage functions: database labels first, then key-value labels. -/
def mk_label_types (db_labels kv_labels : List String) :
    List (String × ResourceType) :=
  db_labels.map (fun l => (l, ResourceType.Database)) ++
    kv_labels.map (fun l => (l, ResourceType.KeyValueStore))

/-- `create_and_link_resources_for_existing_app` from
`src/commands/deploy/database.rs`. -/
def create_and_link_resources_for_existing_app (st : CloudState)
    (app_name : String) (app_id : Nat) (db_labels kv_labels : List String)
    (interact : InteractionStrategy) :
    Except String (Option Unit) × CloudState × List CloudCall :=
  create_and_link_existing_loop app_name app_id interact
    (mk_label_types db_labels kv_labels) st

/-- The create call issued for a `New` selection on the new-app path
(`create_database(r, None)` / `create_key_value_store(&r, None)`). -/
def create_call_no_label (rt : ResourceType) (r : String) : CloudCall :=
  match rt with
  | .Database => .createDatabase r none
  | .KeyValueStore => .createKeyValueStore r none

/-- The `for (label, resource_type) in label_types` loop of
`create_resources_for_new_app`.  Result `some specs` is the accumulated
`resources_to_link`; `none` means the user cancelled. -/
def create_resources_new_loop (name : String)
    (interact : InteractionStrategy) :
    List (String × ResourceType) → CloudState →
      Except String (Option (List LinkageSpec)) × CloudState × List CloudCall
  | [], st => (.ok (some []), st, [])
  | (label, resource_type) :: rest, st =>
    match get_resource_selection_for_new_app st name label interact
        resource_type with
    | (.error e, calls) => (.error e, st, calls)
    | (.ok .Cancelled, calls) => (.ok none, st, calls)
    | (.ok (.Existing rname), calls) =>
        let r := create_resources_new_loop name interact rest st
        (r.1.map (Option.map (⟨label, rname, resource_type⟩ :: ·)), r.2.1,
         calls ++ r.2.2)
    | (.ok (.New rname), calls) =>
        let c := create_call_no_label resource_type rname
        let r := create_resources_new_loop name interact rest
          (apply_call st c)
        (r.1.map (Option.map (⟨label, rname, resource_type⟩ :: ·)), r.2.1,
         calls ++ c :: r.2.2)

/-- `create_resources_for_new_app` from
`src/commands/deploy/database.rs`. -/
def create_resources_for_new_app (st : CloudState) (app_name : String)
    (db_labels kv_labels : List String) (interact : InteractionStrategy) :
    Except String (Option (List LinkageSpec)) × CloudState × List CloudCall :=
  create_resources_new_loop app_name interact
    (mk_label_types db_labels kv_labels) st

/-- `link_resources` from `src/commands/deploy/database.rs`: link every
accumulated `LinkageSpec` to the (now created) app. -/
def link_resources (app_name : String) (app_id : Nat) :
    List LinkageSpec → CloudState → CloudState × List CloudCall
  | [], st => (st, [])
  | link :: rest, st =>
    let resource_label : ResourceLabel := ⟨app_id, link.label, some app_name⟩
    let c := link_call link.resource_type link.resource_name resource_label
    let r := link_resources app_name app_id rest (apply_call st c)
    (r.1, c :: r.2)

/-- `SPIN_DEFAULT_KV_STORE` from `src/commands/deploy.rs`. -/
def SPIN_DEFAULT_KV_STORE : String := "default"

/-- The "Create or update app" slice of `deploy_cloud`
(`src/commands/deploy.rs` lines 220-295), embedded over the call trace.
`app_id_result` is what `client.get_app_id(&name)` returned; `new_app_id`
is the id `client.add_app` hands back on the new-app path.  The overall
result is `ok none` when the flow returned `Ok(())` early after a
cancellation, `ok (some app_id)` when it proceeded. -/
def deploy_create_or_update (st : CloudState) (name storage_id version : String)
    (app_id_result : Option Nat) (new_app_id : Nat)
    (db_labels kv_labels : List String) (interact : InteractionStrategy)
    (key_values : List (String × String))
    (vars : List (String × String)) :
    Except String (Option Nat) × CloudState × List CloudCall :=
  match app_id_result with
  | some app_id =>
    match create_and_link_resources_for_existing_app st name app_id db_labels
        kv_labels interact with
    | (.error e, st', calls) => (.error e, st', calls)
    | (.ok _, st', calls) =>
        (.ok (some app_id), st',
         calls ++ CloudCall.addRevision storage_id version ::
           (key_values.map fun kv =>
             CloudCall.addKeyValuePair app_id SPIN_DEFAULT_KV_STORE kv.1 kv.2) ++
           (vars.map fun v =>
             CloudCall.addVariablePair app_id v.1 v.2))
  | none =>
    match create_resources_for_new_app st name db_labels kv_labels interact with
    | (.error e, st', calls) => (.error e, st', calls)
    | (.ok none, st', calls) => (.ok none, st', calls)
    | (.ok (some resources_to_link), st', calls) =>
        let r := link_resources name new_app_id resources_to_link st'
        (.ok (some new_app_id), r.1,
         calls ++ CloudCall.addApp name storage_id ::
           (r.2 ++ CloudCall.addRevision storage_id version ::
             (key_values.map fun kv =>
               CloudCall.addKeyValuePair new_app_id SPIN_DEFAULT_KV_STORE
                 kv.1 kv.2) ++
             (vars.map fun v =>
               CloudCall.addVariablePair new_app_id v.1 v.2)))

/-- One entry of a `RevisionItemPage` (`cloud_openapi::models`), `Uuid`s as
`Nat`. -/
structure RevisionItem where
  id : Nat
  app_id : Nat
  revision_number : String
deriving DecidableEq, Repr

/-- A page of revisions: its items and whether it reported being the last
page.  A `List RevisionItemPage` is the sequence of pages the backend hands
out to `list_revisions` / `list_revisions_next`. -/
structure RevisionItemPage where
  items : List RevisionItem
  is_last_page : Bool
deriving DecidableEq, Repr

/-- The not-found error raised by `get_revision_id` after exhausting the
pages: `anyhow!("No revision with version {} and app id {}", ...)`. -/
def revision_not_found_message (version : String) (app_id : Nat) : String :=
  s!"No revision with version {version} and app id {app_id}"

/-- The predicate `get_revision_id` scans each page with:
`x.revision_number == version && x.app_id == app_id`. -/
def rev_matches (app_id : Nat) (version : String) (x : RevisionItem) : Bool :=
  decide (x.revision_number = version) && decide (x.app_id = app_id)

/-- `get_revision_id` from `crates/cloud/src/cloud_client_extensions.rs`:
scan each fetched page for a revision matching `(app_id, version)`; return
its id on a match, stop with the not-found error on a page that reports
being the last, otherwise fetch the next page.  An empty page list models
`list_revisions` / `list_revisions_next` itself failing, which cannot occur
once a page reports being the last. -/
def get_revision_id : List RevisionItemPage → Nat → String → Except String Nat
  | [], _, _ => .error "no revision page available"
  | revisions :: rest, app_id, version =>
    match revisions.items.find? (rev_matches app_id version) with
    | some revision => .ok revision.id
    | none =>
        if revisions.is_last_page then
          .error (revision_not_found_message version app_id)
        else
          get_revision_id rest app_id version

/-- The pages `get_revision_id` may consult: every page up to and including
the first one that reports being the last. -/
def pages_up_to_last : List RevisionItemPage → List RevisionItemPage
  | [] => []
  | p :: rest => if p.is_last_page then [p] else p :: pages_up_to_last rest

/-- One entry of a `ChannelItemPage` (`cloud_openapi::models`). -/
structure ChannelItem where
  id : Nat
  app_id : Nat
  name : String
deriving DecidableEq, Repr

/-- A page of channels, as handed out to `list_channels` /
`list_channels_next`. -/
structure ChannelItemPage where
  items : List ChannelItem
  is_last_page : Bool
deriving DecidableEq, Repr

/-- `get_channel_id` from `crates/cloud/src/cloud_client_extensions.rs`:
the same pagination pattern as `get_revision_id`, matching on
`(app_id, name)`. -/
def get_channel_id : List ChannelItemPage → Nat → String → Except String Nat
  | [], _, _ => .error "no channel page available"
  | channels_vm :: rest, app_id, channel_name =>
    match channels_vm.items.find? fun x =>
        decide (x.app_id = app_id) && decide (x.name = channel_name) with
    | some channel => .ok channel.id
    | none =>
        if channels_vm.is_last_page then
          .error s!"No channel with app_id {app_id} and name {channel_name}"
        else
          get_channel_id rest app_id channel_name

/-- One entry of an `AppItemPage` (`cloud_openapi::models`). -/
structure AppItem where
  id : Nat
  name : String
deriving DecidableEq, Repr

/-- A page of apps as returned by `list_apps`. -/
structure AppItemPage where
  items : List AppItem
deriving DecidableEq, Repr

/-- `DEFAULT_APPLIST_PAGE_SIZE` from `crates/cloud/src/lib.rs`. -/
def DEFAULT_APPLIST_PAGE_SIZE : Int := 50

/-- `get_app_id` from `crates/cloud/src/cloud_client_extensions.rs`: one
`list_apps(DEFAULT_APPLIST_PAGE_SIZE, None)` call, then a scan of that
single page.  `backend` maps a `(page_size, page_index)` request to the
page the control plane would return; the second component records the page
requests made. -/
def get_app_id (backend : Int → Option Int → AppItemPage)
    (app_name : String) : Option Nat × List CloudCall :=
  let apps_vm := backend DEFAULT_APPLIST_PAGE_SIZE none
  let app := apps_vm.items.find? fun x => decide (x.name = app_name)
  (app.map (·.id), [.listApps DEFAULT_APPLIST_PAGE_SIZE none])

/-- Modelled from the spec: the Revision/Channel Activator
(spec §4.3).  The channel-activation step of the deploy flow is missing
from `src/` — `deploy_cloud` there stops at `add_revision`, and only the
`add_channel` / `patch_channel` declarations
(`crates/cloud/src/client_interface.rs`) and the `get_revision_id` /
`get_channel_id` helpers are present.  Per the spec: register the revision,
discover its id by paginated search, then for a new app create the channel
pinned to that exact revision (`UseSpecifiedRevision`), and for an existing
app locate the channel by name and patch only its `active_revision_id` and
strategy fields, leaving name and other settings untouched. -/
def activate_revision (app_id : Nat) (storage_id version channel_name : String)
    (is_new_app : Bool) (revision_pages : List RevisionItemPage)
    (channel_pages : List ChannelItemPage) (new_channel_id : Nat) :
    Except String (Nat × List CloudCall) :=
  match get_revision_id revision_pages app_id version with
  | .error e => .error e
  | .ok revision_id =>
    if is_new_app then
      .ok (new_channel_id,
        [.addRevision storage_id version,
         .addChannel app_id channel_name .UseSpecifiedRevision none
           (some revision_id)])
    else
      match get_channel_id channel_pages app_id channel_name with
      | .error e => .error e
      | .ok channel_id =>
        .ok (channel_id,
          [.addRevision storage_id version,
           .patchChannel channel_id none (some .UseSpecifiedRevision) none
             (some revision_id) none])

/-- `TOKEN_MUST_HAVE_REMAINING` from `src/commands/deploy.rs`
(`chrono::TimeDelta::minutes(5)`), in seconds. -/
def TOKEN_MUST_HAVE_REMAINING : Int := 5 * 60

/-- `needs_renewal` from `src/commands/deploy.rs`.  Instants are embedded
as `Int` seconds; `expiration` carries the outcome of
`DateTime::parse_from_rfc3339` on the stored expiration string (`none`
when the stored session has no expiration at all).  The token needs
renewal exactly when the remaining time `expiration - now` is below the
five-minute safety margin; an absent expiration is treated as
non-expiring; an unparseable expiration is an error. -/
def needs_renewal (expiration : Option (Except String Int)) (now : Int) :
    Except String Bool :=
  match expiration with
  | some (.ok time) =>
      let token_time_remaining := time - now
      .ok (token_time_remaining < TOKEN_MUST_HAVE_REMAINING)
  | some (.error err) => .error err
  | none => .ok false

/-- `AppInfo` (from `spin_http::app_info`) as consumed by `is_ready`: only
the `oci_image_digest` field is read. -/
structure AppInfo where
  oci_image_digest : Option String
deriving DecidableEq, Repr

deriving instance DecidableEq for Except

/-- The observable outcome of one readiness poll (`reqwest::get` plus body
parse): either the request itself failed at the transport level, or a
response arrived with an HTTP status and a body whose parse as `AppInfo`
succeeded or failed. -/
inductive PollResult where
  | requestFailure (err : String)
  | response (status : Nat) (body : Except String AppInfo)
deriving DecidableEq, Repr

/-- `StatusCode::is_success`: 2xx. -/
def status_is_success (status : Nat) : Bool :=
  decide (200 ≤ status) && decide (status < 300)

/-- `is_ready` from `src/commands/deploy.rs`: a failed request means "not
ready" (`Ok(false)`), a non-success status means "not ready", a parsed
body whose digest differs from the expected version means "not ready",
and anything else — including a success response whose body does not parse
— means "ready" (`Ok(true)`). -/
def is_ready (resp : PollResult) (expected_version : String) :
    Except String Bool :=
  match resp with
  | .requestFailure _ => .ok false
  | .response status body =>
    if !status_is_success status then .ok false
    else
      match body with
      | .ok app_info =>
          let active_version := app_info.oci_image_digest
          if active_version ≠ some expected_version then .ok false
          else .ok true
      | .error _ => .ok true

/-- `READINESS_POLL_INTERVAL_SECS` from `src/commands/deploy.rs`. -/
def READINESS_POLL_INTERVAL_SECS : Nat := 2

/-- How `wait_for_ready` exits: the readiness check returned an error (the
`Err` arm that prints "readiness check failed" and abandons the wait), the
app became ready, the timeout elapsed, or waiting was skipped because the
timeout was zero.  None of these fails the overall command — the function
returns `()` in the source. -/
inductive WaitOutcome where
  | readinessCheckFailed (err : String)
  | ready
  | timedOut
  | skipped
deriving DecidableEq, Repr

/-- The polling loop of `wait_for_ready`: poll `i` is the `i`-th call to
`is_ready` (the `polls` stream supplies each poll's observable outcome);
`elapsed` models `start.elapsed()` at the post-poll timeout check,
advancing by the poll interval each iteration.  Returns the outcome and
the number of polls performed. -/
def wait_for_ready_loop (expected_version : String)
    (polls : Nat → PollResult) (timeout : Nat) (i elapsed : Nat) :
    WaitOutcome × Nat :=
  match is_ready (polls i) expected_version with
  | .error err => (.readinessCheckFailed err, i + 1)
  | .ok true => (.ready, i + 1)
  | .ok false =>
    if h : timeout ≤ elapsed then (.timedOut, i + 1)
    else
      wait_for_ready_loop expected_version polls timeout (i + 1)
        (elapsed + READINESS_POLL_INTERVAL_SECS)
termination_by timeout - elapsed
decreasing_by
  simp only [READINESS_POLL_INTERVAL_SECS]
  omega

/-- `wait_for_ready` from `src/commands/deploy.rs`: zero timeout returns
immediately with no polls, otherwise run the polling loop. -/
def wait_for_ready (expected_version : String) (polls : Nat → PollResult)
    (readiness_timeout_secs : Nat) : WaitOutcome × Nat :=
  if readiness_timeout_secs = 0 then (.skipped, 0)
  else wait_for_ready_loop expected_version polls readiness_timeout_secs 0 0

/-- Whether a recorded call is a create-resource, create-link or
decision-strategy invocation for the `(label, rt)` pair. -/
def call_touches_label (c : CloudCall) (label : String) (rt : ResourceType) :
    Bool :=
  match c with
  | .promptResourceSelection _ l t => decide (l = label) && decide (t = rt)
  | .createDatabase _ (some rl) =>
      decide (rl.label = label) && decide (rt = .Database)
  | .createDatabase _ none => false
  | .createKeyValueStore _ (some rl) =>
      decide (rl.label = label) && decide (rt = .KeyValueStore)
  | .createKeyValueStore _ none => false
  | .createDatabaseLink _ rl =>
      decide (rl.label = label) && decide (rt = .Database)
  | .createKeyValueStoreLink _ rl =>
      decide (rl.label = label) && decide (rt = .KeyValueStore)
  | _ => false

/-- The calls the resource-linkage engine itself can emit: resource
listings, strategy prompts, and create/link calls.  In particular the
engine never emits `addApp`, `addRevision`, channel or delete calls. -/
def is_engine_call (c : CloudCall) : Bool :=
  match c with
  | .getDatabases => true
  | .getKeyValueStores => true
  | .promptResourceSelection _ _ _ => true
  | .createDatabase _ _ => true
  | .createKeyValueStore _ _ => true
  | .createDatabaseLink _ _ => true
  | .createKeyValueStoreLink _ _ => true
  | _ => false

/-- Channel-activation calls (`add_channel` / `patch_channel`). -/
def is_channel_call (c : CloudCall) : Bool :=
  match c with
  | .addChannel _ _ _ _ _ => true
  | .patchChannel _ _ _ _ _ _ => true
  | _ => false

/-- Resource-removal calls (`delete_database` / `delete_key_value_store`). -/
def is_delete_call (c : CloudCall) : Bool :=
  match c with
  | .deleteDatabase _ => true
  | .deleteKeyValueStore _ => true
  | _ => false

/-- The `add_app` call that creates the app record. -/
def is_add_app_call (c : CloudCall) : Bool :=
  match c with
  | .addApp _ _ => true
  | _ => false

/-! ## Theorems -/

/-- C7: `needs_renewal` returns true exactly when the stored session has an
expiration timestamp and the remaining time to it is less than 5 minutes;
a session with no expiration never needs renewal; expiry 4 minutes away
triggers renewal and expiry 10 minutes away does not. -/
theorem needs_renewal_characterization
    (expiration : Option (Except String Int)) (now : Int) :
    (needs_renewal expiration now = .ok true ↔
      ∃ t, expiration = some (.ok t) ∧ t - now < TOKEN_MUST_HAVE_REMAINING)
    ∧ needs_renewal none now = .ok false
    ∧ needs_renewal (some (.ok (now + 4 * 60))) now = .ok true
    ∧ needs_renewal (some (.ok (now + 10 * 60))) now = .ok false := by
  refine ⟨?_, by simp [needs_renewal], ?_, ?_⟩
  · match expiration with
    | none => simp [needs_renewal]
    | some (.ok t) => simp [needs_renewal]
    | some (.error e) => simp [needs_renewal]
  · simp [needs_renewal, TOKEN_MUST_HAVE_REMAINING]
  · simp [needs_renewal, TOKEN_MUST_HAVE_REMAINING]

/-- C9: a readiness poll whose HTTP response has a success status but a
body that does not parse as `AppInfo` is reported ready, for every
expected version — the serving version is never compared. -/
theorem is_ready_unparseable_body_reports_ready (status : Nat)
    (hs : status_is_success status = true) :
    ∀ (parse_err expected_version : String),
      is_ready (.response status (.error parse_err)) expected_version =
        .ok true := by
  intro parse_err expected_version
  simp [is_ready, hs]

/-- Witness for C9 at a concrete success status and unparseable body. -/
theorem is_ready_unparseable_body_reports_ready_witness :
    status_is_success 200 = true ∧
      is_ready (.response 200 (.error "not json")) "sha256:abc" = .ok true :=
  ⟨by decide,
   is_ready_unparseable_body_reports_ready 200 (by decide) "not json"
     "sha256:abc"⟩

/-- C4: a `Scripted` strategy resolves a mapped label purely — `Existing`
when the mapped name occurs among the current resources, `New` otherwise —
and never returns `Cancelled` on any input. -/
theorem scripted_prompt_resolution (s : Scripted) (name label : String)
    (resources : List ResourceLinks) (resource_type : ResourceType)
    (nm : String) (hmap : (s.labels_map resource_type).lookup label = some nm) :
    (nm ∈ resources.map (·.name) →
      s.prompt_resource_selection name label resources resource_type =
        .ok (.Existing nm))
    ∧ (nm ∉ resources.map (·.name) →
      s.prompt_resource_selection name label resources resource_type =
        .ok (.New nm))
    ∧ ∀ label', s.prompt_resource_selection name label' resources
        resource_type ≠ .ok .Cancelled := by
  refine ⟨?_, ?_, ?_⟩
  · intro hmem
    simp [Scripted.prompt_resource_selection, Scripted.resource_for, hmap,
      List.elem_iff, hmem]
  · intro hmem
    simp [Scripted.prompt_resource_selection, Scripted.resource_for, hmap,
      List.elem_iff, hmem]
  · intro label'
    cases hr : (s.labels_map resource_type).lookup label' with
    | none => simp [Scripted.prompt_resource_selection, Scripted.resource_for, hr]
    | some r =>
        simp only [Scripted.prompt_resource_selection, Scripted.resource_for,
          hr]
        split <;> simp

/-- Witness for C4: the scripted map `default -> db1` against a resource
list that contains `db1`, and against one that does not. -/
theorem scripted_prompt_resolution_witness :
    ((Scripted.mk [] [("default", "db1")]).labels_map .Database).lookup
        "default" = some "db1"
    ∧ (Scripted.mk [] [("default", "db1")]).prompt_resource_selection "app"
        "default" [⟨"db1", []⟩] .Database = .ok (.Existing "db1") := by
  refine ⟨by decide, ?_⟩
  exact (scripted_prompt_resolution (Scripted.mk [] [("default", "db1")])
    "app" "default" [⟨"db1", []⟩] .Database "db1" (by decide)).1 (by decide)

/-- C10: `get_app_id` requests exactly one page of apps (page size 50, no
page index, no further requests); when the app name is absent from that
page it returns `none` without error, and the deploy flow then behaves
exactly as for a new app. -/
theorem get_app_id_first_page_only
    (backend : Int → Option Int → AppItemPage) (app_name : String)
    (habsent : ∀ a ∈ (backend DEFAULT_APPLIST_PAGE_SIZE none).items,
      a.name ≠ app_name) :
    (get_app_id backend app_name).2 = [.listApps 50 none]
    ∧ (get_app_id backend app_name).1 = none
    ∧ ∀ st storage_id version new_app_id db_labels kv_labels interact
        key_values vars,
        deploy_create_or_update st app_name storage_id version
            (get_app_id backend app_name).1 new_app_id db_labels kv_labels
            interact key_values vars =
          deploy_create_or_update st app_name storage_id version none
            new_app_id db_labels kv_labels interact key_values vars := by
  have hfind : (backend DEFAULT_APPLIST_PAGE_SIZE none).items.find?
      (fun x => decide (x.name = app_name)) = none := by
    rw [List.find?_eq_none]
    intro a ha
    simpa using habsent a ha
  refine ⟨rfl, ?_, ?_⟩
  · simp [get_app_id, hfind]
  · intro st storage_id version new_app_id db_labels kv_labels interact
      key_values vars
    simp [get_app_id, hfind]

/-- Witness for C10 at a concrete one-app backend that does not contain
the searched name. -/
theorem get_app_id_first_page_only_witness :
    (∀ a ∈ (fun (_ : Int) (_ : Option Int) =>
        AppItemPage.mk [⟨1, "other"⟩] : Int → Option Int → AppItemPage)
          DEFAULT_APPLIST_PAGE_SIZE none |>.items, a.name ≠ "blog")
    ∧ (get_app_id (fun _ _ => AppItemPage.mk [⟨1, "other"⟩]) "blog").1 =
        none := by
  refine ⟨by decide, ?_⟩
  exact (get_app_id_first_page_only (fun _ _ => AppItemPage.mk [⟨1, "other"⟩])
    "blog" (by decide)).2.1

/-- C6: provided some page reports being the last, `get_revision_id`
returns the id of the first revision matching `(app_id, version)` among
the pages up to and including the first last-marked page, and otherwise
returns the not-found error, whose text includes the searched version and
app id. -/
theorem get_revision_id_pagination (pages : List RevisionItemPage)
    (app_id : Nat) (version : String)
    (hlast : ∃ p ∈ pages, p.is_last_page = true) :
    (get_revision_id pages app_id version =
      match ((pages_up_to_last pages).flatMap (·.items)).find?
          (rev_matches app_id version) with
      | some r => .ok r.id
      | none => .error (revision_not_found_message version app_id))
    ∧ (∃ pre post,
        revision_not_found_message version app_id = pre ++ version ++ post)
    ∧ (∃ pre post,
        revision_not_found_message version app_id =
          pre ++ toString app_id ++ post) := by
  refine ⟨?_, ?_, ?_⟩
  · induction pages with
    | nil => simp at hlast
    | cons p rest ih =>
      rw [get_revision_id]
      cases hfind : p.items.find? (rev_matches app_id version) with
      | some r =>
        cases hp : p.is_last_page <;>
          simp [pages_up_to_last, hp, List.find?_append, hfind]
      | none =>
        cases hp : p.is_last_page with
        | true => simp [pages_up_to_last, hp, List.find?_append, hfind]
        | false =>
          have hlast' : ∃ q ∈ rest, q.is_last_page = true := by
            rcases hlast with ⟨q, hq, hqlast⟩
            rcases List.mem_cons.mp hq with rfl | hq'
            · rw [hp] at hqlast; cases hqlast
            · exact ⟨q, hq', hqlast⟩
          simp [pages_up_to_last, hp, List.find?_append, hfind, ih hlast']
  · refine ⟨"No revision with version ", " and app id " ++ toString app_id, ?_⟩
    show "No revision with version " ++ version ++ " and app id " ++
        toString app_id ++ "" =
      "No revision with version " ++ version ++
        (" and app id " ++ toString app_id)
    simp [String.append_assoc, String.append_empty]
  · refine ⟨"No revision with version " ++ version ++ " and app id ", "", ?_⟩
    show "No revision with version " ++ version ++ " and app id " ++
        toString app_id ++ "" =
      "No revision with version " ++ version ++ " and app id " ++
        toString app_id ++ ""
    rfl

/-- Witness for C6: a three-page search where the second page is marked
last and holds the match; the third page is never consulted. -/
theorem get_revision_id_pagination_witness :
    (∃ p ∈ [RevisionItemPage.mk [⟨9, 2, "v0"⟩] false,
            RevisionItemPage.mk [⟨5, 2, "v1"⟩] true,
            RevisionItemPage.mk [⟨6, 2, "v1"⟩] false],
      p.is_last_page = true)
    ∧ get_revision_id
        [RevisionItemPage.mk [⟨9, 2, "v0"⟩] false,
         RevisionItemPage.mk [⟨5, 2, "v1"⟩] true,
         RevisionItemPage.mk [⟨6, 2, "v1"⟩] false] 2 "v1" =
      match (((pages_up_to_last
          [RevisionItemPage.mk [⟨9, 2, "v0"⟩] false,
           RevisionItemPage.mk [⟨5, 2, "v1"⟩] true,
           RevisionItemPage.mk [⟨6, 2, "v1"⟩] false]).flatMap
            (·.items)).find? (rev_matches 2 "v1")) with
      | some r => .ok r.id
      | none => .error (revision_not_found_message "v1" 2) := by
  refine ⟨by decide, ?_⟩
  exact (get_revision_id_pagination
    [RevisionItemPage.mk [⟨9, 2, "v0"⟩] false,
     RevisionItemPage.mk [⟨5, 2, "v1"⟩] true,
     RevisionItemPage.mk [⟨6, 2, "v1"⟩] false] 2 "v1" (by decide)).1

theorem lookup_append_none {α β : Type} [BEq α] (l1 l2 : List (α × β))
    (k : α) (h : l1.lookup k = none) :
    (l1 ++ l2).lookup k = l2.lookup k := by
  induction l1 with
  | nil => rfl
  | cons p rest ih =>
    rw [List.cons_append, List.lookup_cons]
    rw [List.lookup_cons] at h
    cases hk : (k == p.1) with
    | true => simp [hk] at h
    | false =>
      simp only [hk] at h ⊢
      exact ih h

theorem lookup_append_some {α β : Type} [BEq α] (l1 l2 : List (α × β))
    (k : α) (v : β) (h : l1.lookup k = some v) :
    (l1 ++ l2).lookup k = some v := by
  induction l1 with
  | nil => simp [List.lookup] at h
  | cons p rest ih =>
    rw [List.cons_append, List.lookup_cons]
    rw [List.lookup_cons] at h
    cases hk : (k == p.1) with
    | true => simpa [hk] using h
    | false =>
      simp only [hk] at h ⊢
      exact ih h

theorem lookup_append_singleton_self {α β : Type} [BEq α] [LawfulBEq α]
    (l : List (α × β)) (k : α) (v : β) :
    (l ++ [(k, v)]).lookup k ≠ none := by
  cases hx : l.lookup k with
  | none =>
    rw [lookup_append_none l [(k, v)] k hx]
    simp [List.lookup_cons]
  | some w => simp [lookup_append_some l [(k, v)] k w hx]

theorem set_label_action_of_some (s : Scripted) (lab nm v : String)
    (rt : ResourceType) (h : (s.labels_map rt).lookup lab = some v) :
    ∃ e, s.set_label_action lab nm rt = .error e :=
  ⟨s!"Label {lab} is linked more than once",
   by simp [Scripted.set_label_action, h]⟩

theorem set_label_action_ok_maps (s s' : Scripted) (lab nm : String)
    (rt : ResourceType) (h : s.set_label_action lab nm rt = .ok s') :
    s'.labels_map rt = s.labels_map rt ++ [(lab, nm)]
    ∧ ∀ rt', rt' ≠ rt → s'.labels_map rt' = s.labels_map rt' := by
  cases hl : (s.labels_map rt).lookup lab with
  | some v => simp [Scripted.set_label_action, hl] at h
  | none =>
    cases rt with
    | Database =>
      simp [Scripted.set_label_action, hl] at h
      subst h
      refine ⟨rfl, ?_⟩
      intro rt' hrt'
      cases rt' with
      | Database => exact absurd rfl hrt'
      | KeyValueStore => rfl
    | KeyValueStore =>
      simp [Scripted.set_label_action, hl] at h
      subst h
      refine ⟨rfl, ?_⟩
      intro rt' hrt'
      cases rt' with
      | Database => rfl
      | KeyValueStore => exact absurd rfl hrt'

theorem set_label_action_of_none (s : Scripted) (lab nm : String)
    (rt : ResourceType) (h : (s.labels_map rt).lookup lab = none) :
    ∃ s', s.set_label_action lab nm rt = .ok s' := by
  cases rt with
  | Database =>
    have h' : s.db_labels_to_resource.lookup lab = none := h
    exact ⟨⟨s.kv_labels_to_resource, s.db_labels_to_resource ++ [(lab, nm)]⟩,
      by simp [Scripted.set_label_action, Scripted.labels_map, h']⟩
  | KeyValueStore =>
    have h' : s.kv_labels_to_resource.lookup lab = none := h
    exact ⟨⟨s.kv_labels_to_resource ++ [(lab, nm)], s.db_labels_to_resource⟩,
      by simp [Scripted.set_label_action, Scripted.labels_map, h']⟩

theorem set_label_actions_error_of_lookup (b : LinkageSpec)
    (l3 : List LinkageSpec) :
    ∀ (l2 : List LinkageSpec) (strat : Scripted),
      (strat.labels_map b.resource_type).lookup b.label ≠ none →
      ∃ e, set_label_actions strat (l2 ++ b :: l3) = .error e := by
  intro l2
  induction l2 with
  | nil =>
    intro strat h
    rcases Option.ne_none_iff_exists'.mp h with ⟨v, hv⟩
    rcases set_label_action_of_some strat b.label b.resource_name v
      b.resource_type hv with ⟨e, he⟩
    exact ⟨e, by simp [set_label_actions, he]⟩
  | cons m rest ih =>
    intro strat h
    cases hm : strat.set_label_action m.label m.resource_name
        m.resource_type with
    | error e => exact ⟨e, by simp [set_label_actions, hm]⟩
    | ok s' =>
      have h' : (s'.labels_map b.resource_type).lookup b.label ≠ none := by
        rcases set_label_action_ok_maps strat s' m.label m.resource_name
          m.resource_type hm with ⟨heq, hne⟩
        by_cases hrt : m.resource_type = b.resource_type
        · rw [← hrt, heq]
          rcases Option.ne_none_iff_exists'.mp h with ⟨v, hv⟩
          rw [← hrt] at hv
          simp [lookup_append_some _ _ _ _ hv]
        · rw [hne b.resource_type fun hbm => hrt hbm.symm]
          exact h
      rcases ih s' h' with ⟨e, he⟩
      exact ⟨e, by simp [set_label_actions, hm, he]⟩

theorem set_label_actions_dup_error (a b : LinkageSpec)
    (hl : a.label = b.label) (ht : a.resource_type = b.resource_type)
    (l2 l3 : List LinkageSpec) :
    ∀ (l1 : List LinkageSpec) (strat : Scripted),
      ∃ e, set_label_actions strat (l1 ++ a :: (l2 ++ b :: l3)) = .error e := by
  intro l1
  induction l1 with
  | nil =>
    intro strat
    cases ha : strat.set_label_action a.label a.resource_name
        a.resource_type with
    | error e => exact ⟨e, by simp [set_label_actions, ha]⟩
    | ok s' =>
      have h' : (s'.labels_map b.resource_type).lookup b.label ≠ none := by
        rcases set_label_action_ok_maps strat s' a.label a.resource_name
          a.resource_type ha with ⟨heq, -⟩
        rw [← ht, ← hl, heq]
        exact lookup_append_singleton_self _ _ _
      rcases set_label_actions_error_of_lookup b l3 l2 s' h' with ⟨e, he⟩
      exact ⟨e, by simp [set_label_actions, ha, he]⟩
  | cons m rest ih =>
    intro strat
    cases hm : strat.set_label_action m.label m.resource_name
        m.resource_type with
    | error e => exact ⟨e, by simp [set_label_actions, hm]⟩
    | ok s' =>
      rcases ih s' with ⟨e, he⟩
      exact ⟨e, by simp [set_label_actions, hm, he]⟩

theorem set_label_actions_ok_of_distinct (specs : List LinkageSpec) :
    ∀ (strat : Scripted),
      (∀ l ∈ specs, (strat.labels_map l.resource_type).lookup l.label = none) →
      specs.Pairwise
        (fun a b => a.resource_type = b.resource_type → a.label ≠ b.label) →
      ∃ s, set_label_actions strat specs = .ok s := by
  induction specs with
  | nil => exact fun strat _ _ => ⟨strat, rfl⟩
  | cons l rest ih =>
    intro strat hnone hpw
    rcases set_label_action_of_none strat l.label l.resource_name
      l.resource_type (hnone l (by simp)) with ⟨s', hs'⟩
    rcases set_label_action_ok_maps strat s' l.label l.resource_name
      l.resource_type hs' with ⟨heq, hne⟩
    rcases List.pairwise_cons.mp hpw with ⟨hhead, htail⟩
    have hnone' : ∀ m ∈ rest,
        (s'.labels_map m.resource_type).lookup m.label = none := by
      intro m hm
      by_cases hrt : m.resource_type = l.resource_type
      · rw [hrt, heq]
        rw [lookup_append_none _ _ _ (by rw [← hrt]; exact hnone m (by simp [hm]))]
        have hlab : l.label ≠ m.label := hhead m hm (by rw [hrt])
        simp only [List.lookup]
        cases hbe : (m.label == l.label) with
        | true => exact absurd (eq_of_beq hbe).symm hlab
        | false => rfl
      · rw [hne m.resource_type hrt]
        exact hnone m (by simp [hm])
    rcases ih s' hnone' htail with ⟨s'', hs''⟩
    exact ⟨s'', by simp [set_label_actions, hs', hs'']⟩

theorem parse_linkage_specs_from_eq_set_label_actions :
    ∀ (links : List String) (specs : List LinkageSpec) (strat : Scripted),
      parse_all_links links = .ok specs →
      parse_linkage_specs_from strat links = set_label_actions strat specs := by
  intro links
  induction links with
  | nil =>
    intro specs strat h
    simp only [parse_all_links, Except.ok.injEq] at h
    subst h
    rfl
  | cons s rest ih =>
    intro specs strat h
    cases hf : LinkageSpec.from_str s with
    | error e => simp [parse_all_links, hf] at h
    | ok l =>
      cases hr : parse_all_links rest with
      | error e => simp [parse_all_links, hf, hr] at h
      | ok ls =>
        simp only [parse_all_links, hf, hr, Except.ok.injEq] at h
        subst h
        cases hsla : strat.set_label_action l.label l.resource_name
            l.resource_type with
        | error e => simp [parse_linkage_specs_from, set_label_actions, hf, hsla]
        | ok strat' =>
          simp only [parse_linkage_specs_from, set_label_actions, hf, hsla]
          exact ih ls strat' hr

/-- C5: constructing a `Scripted` strategy from a sequence containing two
entries with the same label for the same resource kind fails at
construction time (the construction fold is pure — no resolution and no
network call is involved); with labels distinct per kind it succeeds; and
`parse_linkage_specs` is exactly this construction fold applied to the
parsed `--link` values. -/
theorem scripted_construction (specs : List LinkageSpec) :
    (∀ (l1 : List LinkageSpec) (a : LinkageSpec) (l2 : List LinkageSpec)
        (b : LinkageSpec) (l3 : List LinkageSpec),
      specs = l1 ++ a :: (l2 ++ b :: l3) → a.label = b.label →
      a.resource_type = b.resource_type →
      ∃ e, set_label_actions Scripted.empty specs = .error e)
    ∧ (specs.Pairwise
        (fun a b => a.resource_type = b.resource_type → a.label ≠ b.label) →
      ∃ s, set_label_actions Scripted.empty specs = .ok s)
    ∧ ∀ links, parse_all_links links = .ok specs →
        parse_linkage_specs links = set_label_actions Scripted.empty specs := by
  refine ⟨?_, ?_, ?_⟩
  · intro l1 a l2 b l3 hdecomp hl ht
    rw [hdecomp]
    exact set_label_actions_dup_error a b hl ht l2 l3 l1 Scripted.empty
  · intro hpw
    refine set_label_actions_ok_of_distinct specs Scripted.empty ?_ hpw
    intro l _
    cases l.resource_type <;> rfl
  · intro links h
    exact parse_linkage_specs_from_eq_set_label_actions links specs
      Scripted.empty h

/-- Witness for C5: a duplicated `sqlite` label fails, distinct labels per
kind succeed, and the parser agrees with the construction fold. -/
theorem scripted_construction_witness :
    (∃ e, set_label_actions Scripted.empty
      [⟨"a", "x", .Database⟩, ⟨"a", "y", .Database⟩] = .error e)
    ∧ (∃ s, set_label_actions Scripted.empty
      [⟨"a", "x", .Database⟩, ⟨"a", "y", .KeyValueStore⟩,
       ⟨"b", "z", .Database⟩] = .ok s)
    ∧ parse_linkage_specs ["sqlite:a=x", "kv:a=y"] =
        set_label_actions Scripted.empty
          [⟨"a", "x", .Database⟩, ⟨"a", "y", .KeyValueStore⟩] := by
  refine ⟨?_, ?_, ?_⟩
  · exact (scripted_construction _).1 [] ⟨"a", "x", .Database⟩ []
      ⟨"a", "y", .Database⟩ [] rfl rfl rfl
  · exact (scripted_construction _).2.1 (by decide)
  · exact (scripted_construction _).2.2 ["sqlite:a=x", "kv:a=y"] (by decide)

theorem is_ready_never_error (r : PollResult) (v : String) :
    ∃ b, is_ready r v = .ok b := by
  cases r with
  | requestFailure e => exact ⟨false, rfl⟩
  | response status body =>
    by_cases hs : status_is_success status
    · cases body with
      | error e => exact ⟨true, by simp [is_ready, hs]⟩
      | ok info =>
        by_cases hv : info.oci_image_digest = some v
        · exact ⟨true, by simp [is_ready, hs, hv]⟩
        · exact ⟨false, by simp [is_ready, hs, hv]⟩
    · exact ⟨false, by
        simp only [is_ready]
        rw [Bool.not_eq_true] at hs
        simp [hs]⟩

theorem wait_for_ready_loop_no_failure (v : String)
    (polls : Nat → PollResult) (timeout : Nat) :
    ∀ (k i elapsed : Nat), timeout - elapsed ≤ k →
      ∀ (err : String) (n : Nat),
        wait_for_ready_loop v polls timeout i elapsed ≠
          (.readinessCheckFailed err, n) := by
  intro k
  induction k with
  | zero =>
    intro i elapsed hk err n
    rw [wait_for_ready_loop]
    obtain ⟨b, hb⟩ := is_ready_never_error (polls i) v
    rw [hb]
    cases b
    · have hto : timeout ≤ elapsed := by omega
      simp [hto]
    · simp
  | succ k ih =>
    intro i elapsed hk err n
    rw [wait_for_ready_loop]
    obtain ⟨b, hb⟩ := is_ready_never_error (polls i) v
    rw [hb]
    cases b
    · by_cases hto : timeout ≤ elapsed
      · simp [hto]
      · rw [dif_neg hto]
        exact ih (i + 1) (elapsed + READINESS_POLL_INTERVAL_SECS)
          (by simp [READINESS_POLL_INTERVAL_SECS]; omega) err n
    · simp

/-- Counterexample to C8: a transport-level hard failure does NOT
terminate the wait loop.  The first poll fails at the request level, yet
`is_ready` classifies it as "not yet ready" (`Ok(false)`), the loop
performs a second poll and reports ready. -/
theorem hard_failure_does_not_abort_wait :
    is_ready (.requestFailure "connection refused") "v1" = .ok false
    ∧ wait_for_ready "v1"
        (fun i => if i = 0 then .requestFailure "connection refused"
                  else .response 200 (.ok ⟨some "v1"⟩)) 60 = (.ready, 2) := by
  constructor
  · rfl
  · rw [wait_for_ready]
    norm_num
    rw [wait_for_ready_loop]
    norm_num [is_ready]
    rw [wait_for_ready_loop]
    norm_num [is_ready, status_is_success]

/-- C8 as amended: a poll with a non-success status or a stale parsed
version is "not yet ready" and polling continues — and a transport-level
request failure is treated exactly the same way: `is_ready` never returns
an error, a not-ready poll before the deadline just leads to the next
poll, and the wait loop can never exit through its
diagnostic-and-abandon (`Err`) arm; no outcome fails the command. -/
theorem wait_for_ready_poll_classification (v e : String) (s s2 : Nat)
    (body : Except String AppInfo) (info : AppInfo)
    (hs : status_is_success s = false) (hs2 : status_is_success s2 = true)
    (hv : info.oci_image_digest ≠ some v) (polls : Nat → PollResult)
    (i elapsed timeout : Nat) (hp : is_ready (polls i) v = .ok false)
    (ht : ¬ timeout ≤ elapsed) :
    is_ready (.requestFailure e) v = .ok false
    ∧ is_ready (.response s body) v = .ok false
    ∧ is_ready (.response s2 (.ok info)) v = .ok false
    ∧ (∀ r, ∃ b, is_ready r v = .ok b)
    ∧ wait_for_ready_loop v polls timeout i elapsed =
        wait_for_ready_loop v polls timeout (i + 1)
          (elapsed + READINESS_POLL_INTERVAL_SECS)
    ∧ ∀ (tout : Nat) (pls : Nat → PollResult) (err : String) (n : Nat),
        wait_for_ready v pls tout ≠ (.readinessCheckFailed err, n) := by
  refine ⟨rfl, ?_, ?_, fun r => is_ready_never_error r v, ?_, ?_⟩
  · simp [is_ready, hs]
  · simp [is_ready, hs2, hv]
  · rw [wait_for_ready_loop, hp]
    rw [dif_neg ht]
  · intro tout pls err n
    rw [wait_for_ready]
    by_cases h0 : tout = 0
    · simp [h0]
    · rw [if_neg h0]
      exact wait_for_ready_loop_no_failure v pls tout (tout - 0) 0 0
        (le_refl _) err n

/-- Witness for the amended C8 at concrete polls and statuses. -/
theorem wait_for_ready_poll_classification_witness :
    status_is_success 500 = false
    ∧ status_is_success 200 = true
    ∧ (AppInfo.mk (some "old")).oci_image_digest ≠ some "v1"
    ∧ is_ready ((fun _ => PollResult.response 500 (.error "x")) 0) "v1" =
        .ok false
    ∧ ¬ (60 : Nat) ≤ 0
    ∧ wait_for_ready_loop "v1" (fun _ => PollResult.response 500 (.error "x"))
        60 0 0 =
      wait_for_ready_loop "v1" (fun _ => PollResult.response 500 (.error "x"))
        60 1 (0 + READINESS_POLL_INTERVAL_SECS) := by
  refine ⟨by decide, by decide, by decide, by decide, by decide, ?_⟩
  exact (wait_for_ready_poll_classification "v1" "refused" 500 200
    (.error "x") (AppInfo.mk (some "old")) (by decide) (by decide)
    (by decide) (fun _ => PollResult.response 500 (.error "x")) 0 0 60
    (by decide) (by decide)).2.2.2.2.1

/-- C3: the Revision/Channel Activator (modelled from the spec — see
`activate_revision`) first registers the revision, then: for a new app it
issues exactly one `add_channel` call pinned to the discovered revision id
with the `UseSpecifiedRevision` strategy; for an existing app it locates
the channel by name and issues exactly one `patch_channel` call carrying
only the strategy and `active_revision_id` fields (name, range rule and
environment variables are all `None`, so a partial update). -/
theorem activate_revision_behaviour (app_id : Nat)
    (storage_id version channel_name : String)
    (revision_pages : List RevisionItemPage)
    (channel_pages : List ChannelItemPage) (new_channel_id rid cid : Nat)
    (hrid : get_revision_id revision_pages app_id version = .ok rid)
    (hcid : get_channel_id channel_pages app_id channel_name = .ok cid) :
    activate_revision app_id storage_id version channel_name true
        revision_pages channel_pages new_channel_id =
      .ok (new_channel_id,
        [.addRevision storage_id version,
         .addChannel app_id channel_name .UseSpecifiedRevision none
           (some rid)])
    ∧ activate_revision app_id storage_id version channel_name false
        revision_pages channel_pages new_channel_id =
      .ok (cid,
        [.addRevision storage_id version,
         .patchChannel cid none (some .UseSpecifiedRevision) none (some rid)
           none]) := by
  constructor
  · simp [activate_revision, hrid]
  · simp [activate_revision, hrid, hcid]

/-- Witness for C3 at a concrete one-page revision and channel search. -/
theorem activate_revision_behaviour_witness :
    get_revision_id [RevisionItemPage.mk [⟨5, 7, "v1"⟩] true] 7 "v1" = .ok 5
    ∧ get_channel_id [ChannelItemPage.mk [⟨3, 7, "prod"⟩] true] 7 "prod" =
        .ok 3
    ∧ activate_revision 7 "oci://blog" "v1" "prod" true
        [RevisionItemPage.mk [⟨5, 7, "v1"⟩] true]
        [ChannelItemPage.mk [⟨3, 7, "prod"⟩] true] 11 =
      .ok (11, [.addRevision "oci://blog" "v1",
                .addChannel 7 "prod" .UseSpecifiedRevision none (some 5)]) := by
  refine ⟨by decide, by decide, ?_⟩
  exact (activate_revision_behaviour 7 "oci://blog" "v1" "prod"
    [RevisionItemPage.mk [⟨5, 7, "v1"⟩] true]
    [ChannelItemPage.mk [⟨3, 7, "prod"⟩] true] 11 5 3 (by decide)
    (by decide)).1

theorem has_link_append (r : ResourceLinks) (rl : ResourceLabel)
    (label : String) (app : Option String)
    (h : r.has_link label app = true) :
    (ResourceLinks.mk r.name (r.links ++ [rl])).has_link label app = true := by
  simp only [ResourceLinks.has_link, List.any_append, Bool.or_eq_true]
  exact Or.inl h

theorem apply_call_preserves_linked (st : CloudState) (c : CloudCall)
    (rt : ResourceType) (label : String) (app : Option String)
    (h : linked_in st rt label app = true) :
    linked_in (apply_call st c) rt label app = true := by
  rcases List.any_eq_true.mp h with ⟨r, hr, hlink⟩
  cases c with
  | createDatabase n rl =>
    cases rt with
    | Database =>
      exact List.any_eq_true.mpr ⟨r, by
        simp only [apply_call, get_resources, List.mem_append]
        exact Or.inl hr, hlink⟩
    | KeyValueStore => exact h
  | createKeyValueStore n rl =>
    cases rt with
    | Database => exact h
    | KeyValueStore =>
      exact List.any_eq_true.mpr ⟨r, by
        simp only [apply_call, get_resources, List.mem_append]
        exact Or.inl hr, hlink⟩
  | createDatabaseLink n rl =>
    cases rt with
    | Database =>
      refine List.any_eq_true.mpr
        ⟨if r.name = n then ⟨r.name, r.links ++ [rl]⟩ else r, ?_, ?_⟩
      · simp only [apply_call, get_resources]
        have := List.mem_map_of_mem
          (fun q => if q.name = n then { q with links := q.links ++ [rl] }
            else q) hr
        simpa using this
      · split
        · exact has_link_append r rl label app hlink
        · exact hlink
    | KeyValueStore => exact h
  | createKeyValueStoreLink n rl =>
    cases rt with
    | Database => exact h
    | KeyValueStore =>
      refine List.any_eq_true.mpr
        ⟨if r.name = n then ⟨r.name, r.links ++ [rl]⟩ else r, ?_, ?_⟩
      · simp only [apply_call, get_resources]
        have := List.mem_map_of_mem
          (fun q => if q.name = n then { q with links := q.links ++ [rl] }
            else q) hr
        simpa using this
      · split
        · exact has_link_append r rl label app hlink
        · exact hlink
  | getDatabases => exact h
  | getKeyValueStores => exact h
  | promptResourceSelection a b t => exact h
  | deleteDatabase n => exact h
  | deleteKeyValueStore n => exact h
  | addApp a b => exact h
  | addRevision a b => exact h
  | addKeyValuePair a b k v => exact h
  | addVariablePair a b v => exact h
  | addChannel a b strat rr ari => exact h
  | patchChannel a b strat rr ari env => exact h
  | listApps a b => exact h

theorem step_calls_touch_false (name l' : String) (rt' : ResourceType)
    (app_id : Nat) (label : String) (rt : ResourceType)
    (hne : (l', rt') ≠ (label, rt)) :
    call_touches_label (get_resources_call rt') label rt = false
    ∧ call_touches_label (.promptResourceSelection name l' rt') label rt =
        false
    ∧ (∀ rname, call_touches_label
        (create_call_with_label rt' rname ⟨app_id, l', some name⟩) label rt =
          false)
    ∧ (∀ rname, call_touches_label
        (link_call rt' rname ⟨app_id, l', some name⟩) label rt = false) := by
  have h : l' ≠ label ∨ rt' ≠ rt := by
    by_contra hc
    push_neg at hc
    exact hne (by rw [hc.1, hc.2])
  cases rt' <;> cases rt <;> rcases h with h | h <;>
    simp_all [call_touches_label, get_resources_call, create_call_with_label,
      link_call]

theorem get_resources_call_touch_false (rt' rt : ResourceType)
    (label : String) :
    call_touches_label (get_resources_call rt') label rt = false := by
  cases rt' <;> rfl

theorem existing_loop_cons_linked (name : String) (app_id : Nat)
    (interact : InteractionStrategy) (l' : String) (rt' : ResourceType)
    (rest : List (String × ResourceType)) (st : CloudState)
    (hl : linked_in st rt' l' (some name) = true) :
    create_and_link_existing_loop name app_id interact ((l', rt') :: rest)
        st =
      ((create_and_link_existing_loop name app_id interact rest st).1,
       (create_and_link_existing_loop name app_id interact rest st).2.1,
       get_resources_call rt' ::
         (create_and_link_existing_loop name app_id interact rest st).2.2) := by
  have hc : ((get_resources st rt').any fun d =>
      d.has_link (ResourceLabel.mk app_id l' (some name)).label
        (ResourceLabel.mk app_id l' (some name)).app_name) = true := hl
  rw [create_and_link_existing_loop, get_resource_selection_for_existing_app,
    if_pos hc]
  rfl

theorem existing_loop_cons_error (name : String) (app_id : Nat)
    (interact : InteractionStrategy) (l' : String) (rt' : ResourceType)
    (rest : List (String × ResourceType)) (st : CloudState) (e : String)
    (hnl : linked_in st rt' l' (some name) = false)
    (hint : interact name l' (get_resources st rt') rt' = .error e) :
    create_and_link_existing_loop name app_id interact ((l', rt') :: rest)
        st =
      (.error e, st,
       [get_resources_call rt', .promptResourceSelection name l' rt']) := by
  have hc : ¬ ((get_resources st rt').any fun d =>
      d.has_link (ResourceLabel.mk app_id l' (some name)).label
        (ResourceLabel.mk app_id l' (some name)).app_name) = true := fun h =>
    absurd (show linked_in st rt' l' (some name) = true from h)
      (by simp [hnl])
  rw [create_and_link_existing_loop, get_resource_selection_for_existing_app,
    if_neg hc, hint]

theorem existing_loop_cons_cancel (name : String) (app_id : Nat)
    (interact : InteractionStrategy) (l' : String) (rt' : ResourceType)
    (rest : List (String × ResourceType)) (st : CloudState)
    (hnl : linked_in st rt' l' (some name) = false)
    (hint : interact name l' (get_resources st rt') rt' = .ok .Cancelled) :
    create_and_link_existing_loop name app_id interact ((l', rt') :: rest)
        st =
      (.ok none, st,
       [get_resources_call rt', .promptResourceSelection name l' rt']) := by
  have hc : ¬ ((get_resources st rt').any fun d =>
      d.has_link (ResourceLabel.mk app_id l' (some name)).label
        (ResourceLabel.mk app_id l' (some name)).app_name) = true := fun h =>
    absurd (show linked_in st rt' l' (some name) = true from h)
      (by simp [hnl])
  rw [create_and_link_existing_loop, get_resource_selection_for_existing_app,
    if_neg hc, hint]

theorem existing_loop_cons_new (name : String) (app_id : Nat)
    (interact : InteractionStrategy) (l' : String) (rt' : ResourceType)
    (rest : List (String × ResourceType)) (st : CloudState) (rname : String)
    (hnl : linked_in st rt' l' (some name) = false)
    (hint : interact name l' (get_resources st rt') rt' =
      .ok (.New rname)) :
    create_and_link_existing_loop name app_id interact ((l', rt') :: rest)
        st =
      ((create_and_link_existing_loop name app_id interact rest
          (apply_call st
            (create_call_with_label rt' rname ⟨app_id, l', some name⟩))).1,
       (create_and_link_existing_loop name app_id interact rest
          (apply_call st
            (create_call_with_label rt' rname ⟨app_id, l', some name⟩))).2.1,
       get_resources_call rt' :: .promptResourceSelection name l' rt' ::
         create_call_with_label rt' rname ⟨app_id, l', some name⟩ ::
         (create_and_link_existing_loop name app_id interact rest
            (apply_call st
              (create_call_with_label rt' rname
                ⟨app_id, l', some name⟩))).2.2) := by
  have hc : ¬ ((get_resources st rt').any fun d =>
      d.has_link (ResourceLabel.mk app_id l' (some name)).label
        (ResourceLabel.mk app_id l' (some name)).app_name) = true := fun h =>
    absurd (show linked_in st rt' l' (some name) = true from h)
      (by simp [hnl])
  rw [create_and_link_existing_loop, get_resource_selection_for_existing_app,
    if_neg hc, hint]
  rfl

theorem existing_loop_cons_existing (name : String) (app_id : Nat)
    (interact : InteractionStrategy) (l' : String) (rt' : ResourceType)
    (rest : List (String × ResourceType)) (st : CloudState) (rname : String)
    (hnl : linked_in st rt' l' (some name) = false)
    (hint : interact name l' (get_resources st rt') rt' =
      .ok (.Existing rname)) :
    create_and_link_existing_loop name app_id interact ((l', rt') :: rest)
        st =
      ((create_and_link_existing_loop name app_id interact rest
          (apply_call st
            (link_call rt' rname ⟨app_id, l', some name⟩))).1,
       (create_and_link_existing_loop name app_id interact rest
          (apply_call st
            (link_call rt' rname ⟨app_id, l', some name⟩))).2.1,
       get_resources_call rt' :: .promptResourceSelection name l' rt' ::
         link_call rt' rname ⟨app_id, l', some name⟩ ::
         (create_and_link_existing_loop name app_id interact rest
            (apply_call st
              (link_call rt' rname ⟨app_id, l', some name⟩))).2.2) := by
  have hc : ¬ ((get_resources st rt').any fun d =>
      d.has_link (ResourceLabel.mk app_id l' (some name)).label
        (ResourceLabel.mk app_id l' (some name)).app_name) = true := fun h =>
    absurd (show linked_in st rt' l' (some name) = true from h)
      (by simp [hnl])
  rw [create_and_link_existing_loop, get_resource_selection_for_existing_app,
    if_neg hc, hint]
  rfl

theorem existing_loop_touches (name : String) (app_id : Nat)
    (interact : InteractionStrategy) (label : String) (rt : ResourceType) :
    ∀ (lts : List (String × ResourceType)) (st : CloudState),
      (label, rt) ∉ lts →
      ∀ c ∈ (create_and_link_existing_loop name app_id interact lts st).2.2,
        call_touches_label c label rt = false := by
  intro lts
  induction lts with
  | nil =>
    intro st _ c hc
    simp [create_and_link_existing_loop] at hc
  | cons hd rest ih =>
    obtain ⟨l', rt'⟩ := hd
    intro st hn c hc
    have hne : (l', rt') ≠ (label, rt) := fun he =>
      hn (by rw [he]; exact List.mem_cons_self _ _)
    have hnr : (label, rt) ∉ rest := fun h => hn (List.mem_cons_of_mem _ h)
    obtain ⟨hread, hprompt, hcreate, hlink⟩ :=
      step_calls_touch_false name l' rt' app_id label rt hne
    cases hl : linked_in st rt' l' (some name) with
    | true =>
      rw [existing_loop_cons_linked name app_id interact l' rt' rest st hl]
        at hc
      simp only [List.mem_cons] at hc
      rcases hc with rfl | hc
      · exact hread
      · exact ih st hnr c hc
    | false =>
      cases hint : interact name l' (get_resources st rt') rt' with
      | error e =>
        rw [existing_loop_cons_error name app_id interact l' rt' rest st e
          hl hint] at hc
        simp only [List.mem_cons, List.not_mem_nil, or_false] at hc
        rcases hc with rfl | rfl
        · exact hread
        · exact hprompt
      | ok sel =>
        cases sel with
        | Cancelled =>
          rw [existing_loop_cons_cancel name app_id interact l' rt' rest st
            hl hint] at hc
          simp only [List.mem_cons, List.not_mem_nil, or_false] at hc
          rcases hc with rfl | rfl
          · exact hread
          · exact hprompt
        | New rname =>
          rw [existing_loop_cons_new name app_id interact l' rt' rest st
            rname hl hint] at hc
          simp only [List.mem_cons] at hc
          rcases hc with rfl | rfl | rfl | hc
          · exact hread
          · exact hprompt
          · exact hcreate rname
          · exact ih _ hnr c hc
        | Existing rname =>
          rw [existing_loop_cons_existing name app_id interact l' rt' rest st
            rname hl hint] at hc
          simp only [List.mem_cons] at hc
          rcases hc with rfl | rfl | rfl | hc
          · exact hread
          · exact hprompt
          · exact hlink rname
          · exact ih _ hnr c hc

theorem existing_loop_skips_linked (name : String) (app_id : Nat)
    (interact : InteractionStrategy) (label : String) (rt : ResourceType) :
    ∀ (lts : List (String × ResourceType)) (st : CloudState),
      lts.Nodup → (label, rt) ∈ lts →
      linked_in st rt label (some name) = true →
      ∀ c ∈ (create_and_link_existing_loop name app_id interact lts st).2.2,
        call_touches_label c label rt = false := by
  intro lts
  induction lts with
  | nil =>
    intro st _ hmem
    simp at hmem
  | cons hd rest ih =>
    obtain ⟨l', rt'⟩ := hd
    intro st hnd hmem hlinked c hc
    rcases List.nodup_cons.mp hnd with ⟨hhd, hndr⟩
    rcases List.mem_cons.mp hmem with heq | hmem'
    · -- this is the already-linked label: the loop skips it
      obtain ⟨hl1, hl2⟩ := Prod.mk.injEq .. ▸ heq
      subst hl1
      subst hl2
      rw [existing_loop_cons_linked name app_id interact label rt rest st
        hlinked] at hc
      simp only [List.mem_cons] at hc
      rcases hc with rfl | hc
      · exact get_resources_call_touch_false rt rt label
      · exact existing_loop_touches name app_id interact label rt rest st
          hhd c hc
    · -- a different (label, kind): its calls touch only itself
      have hne : (l', rt') ≠ (label, rt) := fun he => hhd (he ▸ hmem')
      obtain ⟨hread, hprompt, hcreate, hlink⟩ :=
        step_calls_touch_false name l' rt' app_id label rt hne
      cases hl : linked_in st rt' l' (some name) with
      | true =>
        rw [existing_loop_cons_linked name app_id interact l' rt' rest st hl]
          at hc
        simp only [List.mem_cons] at hc
        rcases hc with rfl | hc
        · exact hread
        · exact ih st hndr hmem' hlinked c hc
      | false =>
        cases hint : interact name l' (get_resources st rt') rt' with
        | error e =>
          rw [existing_loop_cons_error name app_id interact l' rt' rest st e
            hl hint] at hc
          simp only [List.mem_cons, List.not_mem_nil, or_false] at hc
          rcases hc with rfl | rfl
          · exact hread
          · exact hprompt
        | ok sel =>
          cases sel with
          | Cancelled =>
            rw [existing_loop_cons_cancel name app_id interact l' rt' rest st
              hl hint] at hc
            simp only [List.mem_cons, List.not_mem_nil, or_false] at hc
            rcases hc with rfl | rfl
            · exact hread
            · exact hprompt
          | New rname =>
            rw [existing_loop_cons_new name app_id interact l' rt' rest st
              rname hl hint] at hc
            simp only [List.mem_cons] at hc
            rcases hc with rfl | rfl | rfl | hc
            · exact hread
            · exact hprompt
            · exact hcreate rname
            · exact ih _ hndr hmem'
                (apply_call_preserves_linked st _ rt label (some name)
                  hlinked) c hc
          | Existing rname =>
            rw [existing_loop_cons_existing name app_id interact l' rt' rest
              st rname hl hint] at hc
            simp only [List.mem_cons] at hc
            rcases hc with rfl | rfl | rfl | hc
            · exact hread
            · exact hprompt
            · exact hlink rname
            · exact ih _ hndr hmem'
                (apply_call_preserves_linked st _ rt label (some name)
                  hlinked) c hc

theorem mk_label_types_nodup (db_labels kv_labels : List String)
    (h1 : db_labels.Nodup) (h2 : kv_labels.Nodup) :
    (mk_label_types db_labels kv_labels).Nodup := by
  refine List.Nodup.append ?_ ?_ ?_
  · exact h1.map fun a b h => (Prod.ext_iff.mp h).1
  · exact h2.map fun a b h => (Prod.ext_iff.mp h).1
  · intro x hx1 hx2
    rcases List.mem_map.mp hx1 with ⟨l, -, rfl⟩
    rcases List.mem_map.mp hx2 with ⟨l2, -, hx⟩
    cases (Prod.ext_iff.mp hx).2

/-- C1: on the existing-app path, a declared `(label, kind)` pair that
already has a link for this app is an idempotent no-op — the whole run
performs zero create-resource and zero create-link calls for that pair and
never invokes the Decision Strategy on it. -/
theorem idempotent_relink_skips_linked_label (st : CloudState)
    (app_name : String) (app_id : Nat) (db_labels kv_labels : List String)
    (interact : InteractionStrategy) (label : String) (rt : ResourceType)
    (hnd_db : db_labels.Nodup) (hnd_kv : kv_labels.Nodup)
    (hmem : (label, rt) ∈ mk_label_types db_labels kv_labels)
    (hlinked : linked_in st rt label (some app_name) = true) :
    ∀ c ∈ (create_and_link_resources_for_existing_app st app_name app_id
        db_labels kv_labels interact).2.2,
      call_touches_label c label rt = false := by
  intro c hc
  exact existing_loop_skips_linked app_name app_id interact label rt
    (mk_label_types db_labels kv_labels) st
    (mk_label_types_nodup db_labels kv_labels hnd_db hnd_kv) hmem hlinked c hc

/-- Witness for C1: one database label `default`, already linked to the
app through database `db1`; a strategy that would create a resource if it
were ever consulted. -/
theorem idempotent_relink_skips_linked_label_witness :
    (["default"] : List String).Nodup
    ∧ ("default", ResourceType.Database) ∈ mk_label_types ["default"] []
    ∧ linked_in
        ⟨[⟨"db1", [⟨7, "default", some "blog"⟩]⟩], []⟩ .Database "default"
        (some "blog") = true
    ∧ ∀ c ∈ (create_and_link_resources_for_existing_app
        ⟨[⟨"db1", [⟨7, "default", some "blog"⟩]⟩], []⟩ "blog" 7 ["default"]
        [] (fun _ l _ _ => .ok (.New ("r" ++ l)))).2.2,
      call_touches_label c "default" .Database = false := by
  refine ⟨by decide, by decide, by decide, ?_⟩
  exact idempotent_relink_skips_linked_label
    ⟨[⟨"db1", [⟨7, "default", some "blog"⟩]⟩], []⟩ "blog" 7 ["default"] []
    (fun _ l _ _ => .ok (.New ("r" ++ l))) "default" .Database (by decide)
    (by decide) (by decide) (by decide)

theorem new_loop_cons_error (name : String) (interact : InteractionStrategy)
    (l' : String) (rt' : ResourceType) (rest : List (String × ResourceType))
    (st : CloudState) (e : String)
    (hint : interact name l' (get_resources st rt') rt' = .error e) :
    create_resources_new_loop name interact ((l', rt') :: rest) st =
      (.error e, st,
       [get_resources_call rt', .promptResourceSelection name l' rt']) := by
  rw [create_resources_new_loop, get_resource_selection_for_new_app, hint]

theorem new_loop_cons_cancel (name : String) (interact : InteractionStrategy)
    (l' : String) (rt' : ResourceType) (rest : List (String × ResourceType))
    (st : CloudState)
    (hint : interact name l' (get_resources st rt') rt' = .ok .Cancelled) :
    create_resources_new_loop name interact ((l', rt') :: rest) st =
      (.ok none, st,
       [get_resources_call rt', .promptResourceSelection name l' rt']) := by
  rw [create_resources_new_loop, get_resource_selection_for_new_app, hint]

theorem new_loop_cons_existing (name : String)
    (interact : InteractionStrategy) (l' : String) (rt' : ResourceType)
    (rest : List (String × ResourceType)) (st : CloudState) (rname : String)
    (hint : interact name l' (get_resources st rt') rt' =
      .ok (.Existing rname)) :
    create_resources_new_loop name interact ((l', rt') :: rest) st =
      ((create_resources_new_loop name interact rest st).1.map
          (Option.map (⟨l', rname, rt'⟩ :: ·)),
       (create_resources_new_loop name interact rest st).2.1,
       get_resources_call rt' :: .promptResourceSelection name l' rt' ::
         (create_resources_new_loop name interact rest st).2.2) := by
  rw [create_resources_new_loop, get_resource_selection_for_new_app, hint]
  rfl

theorem new_loop_cons_new (name : String) (interact : InteractionStrategy)
    (l' : String) (rt' : ResourceType) (rest : List (String × ResourceType))
    (st : CloudState) (rname : String)
    (hint : interact name l' (get_resources st rt') rt' = .ok (.New rname)) :
    create_resources_new_loop name interact ((l', rt') :: rest) st =
      ((create_resources_new_loop name interact rest
          (apply_call st (create_call_no_label rt' rname))).1.map
          (Option.map (⟨l', rname, rt'⟩ :: ·)),
       (create_resources_new_loop name interact rest
          (apply_call st (create_call_no_label rt' rname))).2.1,
       get_resources_call rt' :: .promptResourceSelection name l' rt' ::
         create_call_no_label rt' rname ::
         (create_resources_new_loop name interact rest
            (apply_call st (create_call_no_label rt' rname))).2.2) := by
  rw [create_resources_new_loop, get_resource_selection_for_new_app, hint]
  rfl

theorem new_loop_cancel_extend (name : String)
    (interact : InteractionStrategy) (lc : String × ResourceType)
    (lts2 : List (String × ResourceType)) :
    ∀ (lts1 : List (String × ResourceType)) (st st1 : CloudState)
      (acc : List LinkageSpec) (tr1 : List CloudCall),
      create_resources_new_loop name interact lts1 st =
        (.ok (some acc), st1, tr1) →
      interact name lc.1 (get_resources st1 lc.2) lc.2 = .ok .Cancelled →
      create_resources_new_loop name interact (lts1 ++ lc :: lts2) st =
        (.ok none, st1,
         tr1 ++ [get_resources_call lc.2,
                 .promptResourceSelection name lc.1 lc.2]) := by
  intro lts1
  induction lts1 with
  | nil =>
    intro st st1 acc tr1 hpre hcancel
    obtain ⟨lcl, lct⟩ := lc
    rw [create_resources_new_loop] at hpre
    simp only [Prod.mk.injEq] at hpre
    obtain ⟨-, h2, h3⟩ := hpre
    subst h2
    subst h3
    rw [List.nil_append]
    exact new_loop_cons_cancel name interact lcl lct lts2 st hcancel
  | cons hd tl ih =>
    intro st st1 acc tr1 hpre hcancel
    obtain ⟨l', rt'⟩ := hd
    cases hint : interact name l' (get_resources st rt') rt' with
    | error e =>
      rw [new_loop_cons_error name interact l' rt' tl st e hint] at hpre
      simp at hpre
    | ok sel =>
      cases sel with
      | Cancelled =>
        rw [new_loop_cons_cancel name interact l' rt' tl st hint] at hpre
        simp at hpre
      | Existing rname =>
        rw [new_loop_cons_existing name interact l' rt' tl st rname hint]
          at hpre
        rcases hrec : create_resources_new_loop name interact tl st with
          ⟨res0, st0, tr0⟩
        rw [hrec] at hpre
        simp only [Prod.mk.injEq] at hpre
        obtain ⟨h1, h2, h3⟩ := hpre
        cases res0 with
        | error e => simp [Except.map] at h1
        | ok o =>
          cases o with
          | none => simp [Except.map] at h1
          | some acc0 =>
            subst h2
            subst h3
            rw [List.cons_append,
              new_loop_cons_existing name interact l' rt'
                (tl ++ lc :: lts2) st rname hint,
              ih st st0 acc0 tr0 hrec hcancel]
            simp [Except.map]
      | New rname =>
        rw [new_loop_cons_new name interact l' rt' tl st rname hint] at hpre
        rcases hrec : create_resources_new_loop name interact tl
            (apply_call st (create_call_no_label rt' rname)) with
          ⟨res0, st0, tr0⟩
        rw [hrec] at hpre
        simp only [Prod.mk.injEq] at hpre
        obtain ⟨h1, h2, h3⟩ := hpre
        cases res0 with
        | error e => simp [Except.map] at h1
        | ok o =>
          cases o with
          | none => simp [Except.map] at h1
          | some acc0 =>
            subst h2
            subst h3
            rw [List.cons_append,
              new_loop_cons_new name interact l' rt' (tl ++ lc :: lts2) st
                rname hint,
              ih _ st0 acc0 tr0 hrec hcancel]
            simp [Except.map]

theorem existing_loop_cancel_extend (name : String) (app_id : Nat)
    (interact : InteractionStrategy) (lc : String × ResourceType)
    (lts2 : List (String × ResourceType)) :
    ∀ (lts1 : List (String × ResourceType)) (st st1 : CloudState)
      (tr1 : List CloudCall),
      create_and_link_existing_loop name app_id interact lts1 st =
        (.ok (some ()), st1, tr1) →
      linked_in st1 lc.2 lc.1 (some name) = false →
      interact name lc.1 (get_resources st1 lc.2) lc.2 = .ok .Cancelled →
      create_and_link_existing_loop name app_id interact
          (lts1 ++ lc :: lts2) st =
        (.ok none, st1,
         tr1 ++ [get_resources_call lc.2,
                 .promptResourceSelection name lc.1 lc.2]) := by
  intro lts1
  induction lts1 with
  | nil =>
    intro st st1 tr1 hpre hnl hcancel
    obtain ⟨lcl, lct⟩ := lc
    rw [create_and_link_existing_loop] at hpre
    simp only [Prod.mk.injEq] at hpre
    obtain ⟨-, h2, h3⟩ := hpre
    subst h2
    subst h3
    rw [List.nil_append]
    exact existing_loop_cons_cancel name app_id interact lcl lct lts2 st hnl
      hcancel
  | cons hd tl ih =>
    intro st st1 tr1 hpre hnl hcancel
    obtain ⟨l', rt'⟩ := hd
    cases hl : linked_in st rt' l' (some name) with
    | true =>
      rw [existing_loop_cons_linked name app_id interact l' rt' tl st hl]
        at hpre
      rcases hrec : create_and_link_existing_loop name app_id interact tl st
        with ⟨res0, st0, tr0⟩
      rw [hrec] at hpre
      simp only [Prod.mk.injEq] at hpre
      obtain ⟨h1, h2, h3⟩ := hpre
      subst h1
      subst h2
      subst h3
      rw [List.cons_append,
        existing_loop_cons_linked name app_id interact l' rt'
          (tl ++ lc :: lts2) st hl,
        ih st st0 tr0 hrec hnl hcancel]
      simp
    | false =>
      cases hint : interact name l' (get_resources st rt') rt' with
      | error e =>
        rw [existing_loop_cons_error name app_id interact l' rt' tl st e hl
          hint] at hpre
        simp at hpre
      | ok sel =>
        cases sel with
        | Cancelled =>
          rw [existing_loop_cons_cancel name app_id interact l' rt' tl st hl
            hint] at hpre
          simp at hpre
        | New rname =>
          rw [existing_loop_cons_new name app_id interact l' rt' tl st rname
            hl hint] at hpre
          rcases hrec : create_and_link_existing_loop name app_id interact tl
              (apply_call st
                (create_call_with_label rt' rname ⟨app_id, l', some name⟩))
            with ⟨res0, st0, tr0⟩
          rw [hrec] at hpre
          simp only [Prod.mk.injEq] at hpre
          obtain ⟨h1, h2, h3⟩ := hpre
          subst h1
          subst h2
          subst h3
          rw [List.cons_append,
            existing_loop_cons_new name app_id interact l' rt'
              (tl ++ lc :: lts2) st rname hl hint,
            ih _ st0 tr0 hrec hnl hcancel]
          simp
        | Existing rname =>
          rw [existing_loop_cons_existing name app_id interact l' rt' tl st
            rname hl hint] at hpre
          rcases hrec : create_and_link_existing_loop name app_id interact tl
              (apply_call st
                (link_call rt' rname ⟨app_id, l', some name⟩))
            with ⟨res0, st0, tr0⟩
          rw [hrec] at hpre
          simp only [Prod.mk.injEq] at hpre
          obtain ⟨h1, h2, h3⟩ := hpre
          subst h1
          subst h2
          subst h3
          rw [List.cons_append,
            existing_loop_cons_existing name app_id interact l' rt'
              (tl ++ lc :: lts2) st rname hl hint,
            ih _ st0 tr0 hrec hnl hcancel]
          simp

theorem engine_call_not_admin (c : CloudCall) (h : is_engine_call c = true) :
    is_add_app_call c = false ∧ is_delete_call c = false ∧
      is_channel_call c = false := by
  cases c <;> simp_all [is_engine_call, is_add_app_call, is_delete_call,
    is_channel_call]

theorem new_loop_calls_engine (name : String)
    (interact : InteractionStrategy) :
    ∀ (lts : List (String × ResourceType)) (st : CloudState),
      ∀ c ∈ (create_resources_new_loop name interact lts st).2.2,
        is_engine_call c = true := by
  intro lts
  induction lts with
  | nil =>
    intro st c hc
    simp [create_resources_new_loop] at hc
  | cons hd rest ih =>
    obtain ⟨l', rt'⟩ := hd
    intro st c hc
    cases hint : interact name l' (get_resources st rt') rt' with
    | error e =>
      rw [new_loop_cons_error name interact l' rt' rest st e hint] at hc
      simp only [List.mem_cons, List.not_mem_nil, or_false] at hc
      rcases hc with rfl | rfl
      · cases rt' <;> rfl
      · rfl
    | ok sel =>
      cases sel with
      | Cancelled =>
        rw [new_loop_cons_cancel name interact l' rt' rest st hint] at hc
        simp only [List.mem_cons, List.not_mem_nil, or_false] at hc
        rcases hc with rfl | rfl
        · cases rt' <;> rfl
        · rfl
      | Existing rname =>
        rw [new_loop_cons_existing name interact l' rt' rest st rname hint]
          at hc
        simp only [List.mem_cons] at hc
        rcases hc with rfl | rfl | hc
        · cases rt' <;> rfl
        · rfl
        · exact ih st c hc
      | New rname =>
        rw [new_loop_cons_new name interact l' rt' rest st rname hint] at hc
        simp only [List.mem_cons] at hc
        rcases hc with rfl | rfl | rfl | hc
        · cases rt' <;> rfl
        · rfl
        · cases rt' <;> rfl
        · exact ih _ c hc

theorem existing_loop_calls_engine (name : String) (app_id : Nat)
    (interact : InteractionStrategy) :
    ∀ (lts : List (String × ResourceType)) (st : CloudState),
      ∀ c ∈ (create_and_link_existing_loop name app_id interact lts st).2.2,
        is_engine_call c = true := by
  intro lts
  induction lts with
  | nil =>
    intro st c hc
    simp [create_and_link_existing_loop] at hc
  | cons hd rest ih =>
    obtain ⟨l', rt'⟩ := hd
    intro st c hc
    cases hl : linked_in st rt' l' (some name) with
    | true =>
      rw [existing_loop_cons_linked name app_id interact l' rt' rest st hl]
        at hc
      simp only [List.mem_cons] at hc
      rcases hc with rfl | hc
      · cases rt' <;> rfl
      · exact ih st c hc
    | false =>
      cases hint : interact name l' (get_resources st rt') rt' with
      | error e =>
        rw [existing_loop_cons_error name app_id interact l' rt' rest st e hl
          hint] at hc
        simp only [List.mem_cons, List.not_mem_nil, or_false] at hc
        rcases hc with rfl | rfl
        · cases rt' <;> rfl
        · rfl
      | ok sel =>
        cases sel with
        | Cancelled =>
          rw [existing_loop_cons_cancel name app_id interact l' rt' rest st
            hl hint] at hc
          simp only [List.mem_cons, List.not_mem_nil, or_false] at hc
          rcases hc with rfl | rfl
          · cases rt' <;> rfl
          · rfl
        | New rname =>
          rw [existing_loop_cons_new name app_id interact l' rt' rest st
            rname hl hint] at hc
          simp only [List.mem_cons] at hc
          rcases hc with rfl | rfl | rfl | hc
          · cases rt' <;> rfl
          · rfl
          · cases rt' <;> rfl
          · exact ih _ c hc
        | Existing rname =>
          rw [existing_loop_cons_existing name app_id interact l' rt' rest st
            rname hl hint] at hc
          simp only [List.mem_cons] at hc
          rcases hc with rfl | rfl | rfl | hc
          · cases rt' <;> rfl
          · rfl
          · cases rt' <;> rfl
          · exact ih _ c hc

/-- C2: when the Decision Strategy cancels at some label (the decomposition
`lts1 ++ lc :: lts2` of the declared label list, with the prefix having run
to completion), the run stops at that label: the whole trace is the prefix
trace plus the listing and prompt for the cancelled label, so zero
create/link calls happen for any later label, nothing is ever deleted
(resources created for earlier labels survive — the final state is exactly
the state reached before the cancelled prompt), and the orchestrator
returns success: on the new-app path (`app_id_result = none`) it returns
`ok` without any `add_app` call, and on the existing-app path it returns
`ok` with the app id and never issues a channel call. -/
theorem cancellation_short_circuit (st stE : CloudState)
    (name storage_id version : String) (app_id new_app_id : Nat)
    (interact : InteractionStrategy)
    (db_labels kv_labels db_labelsE kv_labelsE : List String)
    (lts1 lts2 lts1E lts2E : List (String × ResourceType))
    (lc lcE : String × ResourceType)
    (key_values vars : List (String × String)) (acc : List LinkageSpec)
    (st1 st1E : CloudState) (tr1 tr1E : List CloudCall)
    (hdecomp : mk_label_types db_labels kv_labels = lts1 ++ lc :: lts2)
    (hpre : create_resources_new_loop name interact lts1 st =
      (.ok (some acc), st1, tr1))
    (hcancel : interact name lc.1 (get_resources st1 lc.2) lc.2 =
      .ok .Cancelled)
    (hdecompE : mk_label_types db_labelsE kv_labelsE = lts1E ++ lcE :: lts2E)
    (hpreE : create_and_link_existing_loop name app_id interact lts1E stE =
      (.ok (some ()), st1E, tr1E))
    (hnlE : linked_in st1E lcE.2 lcE.1 (some name) = false)
    (hcancelE : interact name lcE.1 (get_resources st1E lcE.2) lcE.2 =
      .ok .Cancelled) :
    (deploy_create_or_update st name storage_id version none new_app_id
        db_labels kv_labels interact key_values vars =
      (.ok none, st1,
       tr1 ++ [get_resources_call lc.2,
               .promptResourceSelection name lc.1 lc.2]))
    ∧ (∀ c ∈ (deploy_create_or_update st name storage_id version none
          new_app_id db_labels kv_labels interact key_values vars).2.2,
        is_add_app_call c = false ∧ is_delete_call c = false ∧
          is_channel_call c = false)
    ∧ (deploy_create_or_update stE name storage_id version (some app_id)
          new_app_id db_labelsE kv_labelsE interact key_values vars =
        (.ok (some app_id), st1E,
         (tr1E ++ [get_resources_call lcE.2,
                   .promptResourceSelection name lcE.1 lcE.2]) ++
           CloudCall.addRevision storage_id version ::
             ((key_values.map fun kv =>
                CloudCall.addKeyValuePair app_id SPIN_DEFAULT_KV_STORE kv.1
                  kv.2) ++
              vars.map fun v =>
                CloudCall.addVariablePair app_id v.1 v.2)))
    ∧ (∀ c ∈ (deploy_create_or_update stE name storage_id version
          (some app_id) new_app_id db_labelsE kv_labelsE interact key_values
          vars).2.2,
        is_delete_call c = false ∧ is_channel_call c = false) := by
  have hrun : create_resources_for_new_app st name db_labels kv_labels
      interact =
      (.ok none, st1,
       tr1 ++ [get_resources_call lc.2,
               .promptResourceSelection name lc.1 lc.2]) := by
    rw [create_resources_for_new_app, hdecomp]
    exact new_loop_cancel_extend name interact lc lts2 lts1 st st1 acc tr1
      hpre hcancel
  have hrunE : create_and_link_resources_for_existing_app stE name app_id
      db_labelsE kv_labelsE interact =
      (.ok none, st1E,
       tr1E ++ [get_resources_call lcE.2,
                .promptResourceSelection name lcE.1 lcE.2]) := by
    rw [create_and_link_resources_for_existing_app, hdecompE]
    exact existing_loop_cancel_extend name app_id interact lcE lts2E lts1E
      stE st1E tr1E hpreE hnlE hcancelE
  have hdeploy : deploy_create_or_update st name storage_id version none
      new_app_id db_labels kv_labels interact key_values vars =
      (.ok none, st1,
       tr1 ++ [get_resources_call lc.2,
               .promptResourceSelection name lc.1 lc.2]) := by
    rw [deploy_create_or_update, hrun]
  have hdeployE : deploy_create_or_update stE name storage_id version
      (some app_id) new_app_id db_labelsE kv_labelsE interact key_values
      vars =
      (.ok (some app_id), st1E,
       (tr1E ++ [get_resources_call lcE.2,
                 .promptResourceSelection name lcE.1 lcE.2]) ++
         CloudCall.addRevision storage_id version ::
           ((key_values.map fun kv =>
              CloudCall.addKeyValuePair app_id SPIN_DEFAULT_KV_STORE kv.1
                kv.2) ++
            vars.map fun v =>
              CloudCall.addVariablePair app_id v.1 v.2)) := by
    rw [deploy_create_or_update, hrunE]
    simp
  refine ⟨hdeploy, ?_, hdeployE, ?_⟩
  · intro c hc
    rw [hdeploy] at hc
    simp only [List.mem_append, List.mem_cons, List.not_mem_nil, or_false]
      at hc
    have hengine : is_engine_call c = true := by
      rcases hc with hc | rfl | rfl
      · refine new_loop_calls_engine name interact lts1 st c ?_
        rw [hpre]
        exact hc
      · cases lc.2 <;> rfl
      · rfl
    exact engine_call_not_admin c hengine
  · intro c hc
    rw [hdeployE] at hc
    simp only [List.mem_append, List.mem_cons, List.not_mem_nil, or_false]
      at hc
    rcases hc with (hc | rfl | rfl) | rfl | hc | hc
    · have hengine : is_engine_call c = true := by
        refine existing_loop_calls_engine name app_id interact lts1E stE c ?_
        rw [hpreE]
        exact hc
      exact ⟨(engine_call_not_admin c hengine).2.1,
        (engine_call_not_admin c hengine).2.2⟩
    · constructor <;> (cases lcE.2 <;> rfl)
    · exact ⟨rfl, rfl⟩
    · exact ⟨rfl, rfl⟩
    · rcases List.mem_map.mp hc with ⟨kv, -, rfl⟩
      exact ⟨rfl, rfl⟩
    · rcases List.mem_map.mp hc with ⟨v, -, rfl⟩
      exact ⟨rfl, rfl⟩

/-- Witness for C2: a strategy that cancels on label `b`.  New-app path:
labels `a`, `b`, `c`; the run creates `ra` for `a`, stops at `b`, `c` is
never touched and no `add_app` happens.  Existing-app path: label `a` is
already linked, label `b` is cancelled, and the flow still registers the
revision and returns the app id. -/
theorem cancellation_short_circuit_witness :
    deploy_create_or_update ⟨[], []⟩ "blog" "sid" "v1" none 9 ["a", "b", "c"]
        []
        (fun _ l _ _ =>
          if l = "b" then .ok .Cancelled else .ok (.New ("r" ++ l)))
        [("k", "v")] [("x", "y")] =
      (.ok none, ⟨[⟨"ra", []⟩], []⟩,
       [.getDatabases, .promptResourceSelection "blog" "a" .Database,
        .createDatabase "ra" none, .getDatabases,
        .promptResourceSelection "blog" "b" .Database])
    ∧ deploy_create_or_update ⟨[⟨"db0", [⟨7, "a", some "blog"⟩]⟩], []⟩ "blog"
        "sid" "v1" (some 7) 9 ["a", "b"] []
        (fun _ l _ _ =>
          if l = "b" then .ok .Cancelled else .ok (.New ("r" ++ l)))
        [("k", "v")] [("x", "y")] =
      (.ok (some 7), ⟨[⟨"db0", [⟨7, "a", some "blog"⟩]⟩], []⟩,
       [.getDatabases, .getDatabases,
        .promptResourceSelection "blog" "b" .Database,
        .addRevision "sid" "v1", .addKeyValuePair 7 "default" "k" "v",
        .addVariablePair 7 "x" "y"]) := by
  have h := cancellation_short_circuit ⟨[], []⟩
    ⟨[⟨"db0", [⟨7, "a", some "blog"⟩]⟩], []⟩ "blog" "sid" "v1" 7 9
    (fun _ l _ _ =>
      if l = "b" then .ok .Cancelled else .ok (.New ("r" ++ l)))
    ["a", "b", "c"] [] ["a", "b"] []
    [("a", .Database)] [("c", .Database)] [("a", .Database)] []
    ("b", .Database) ("b", .Database) [("k", "v")] [("x", "y")]
    [⟨"a", "ra", .Database⟩] ⟨[⟨"ra", []⟩], []⟩
    ⟨[⟨"db0", [⟨7, "a", some "blog"⟩]⟩], []⟩
    [.getDatabases, .promptResourceSelection "blog" "a" .Database,
     .createDatabase "ra" none] [.getDatabases]
    (by decide) (by decide) (by decide) (by decide) (by decide) (by decide)
    (by decide)
  exact ⟨h.1, h.2.2.1⟩

end CloudPlugin
